import Mathlib

/-!
Verification of the multi-agent MiniGrid simulation core
(`gym_minigrid/minigrid.py`): a shallow embedding of the entity model, the
world grid and its observation codec, the multi-agent turn-resolution engine
(`MultiAgentMiniGridEnv.collision_checker` / `step`), the visibility engine
(`Grid.process_vis`, `gen_obs_grid`), and the communication overlay
(`CommunicativeMultiAgentMiniGridEnv.gen_obs_comm`), together with theorems
settling the spec claims about them.

Conventions of the embedding:
* Python lists become Lean `List`s; `numpy` integer coordinates become `Int`;
  enumeration indices become `Nat`.
* Python dictionaries built in `step` (curr_poses, next_poses, the
  drop/pickup/door location maps) are modelled as lookup functions computed
  from the same data, preserving insertion order where it matters.
* A Python method that can fail an assertion, raise `KeyError`, or not return
  at all (unbounded recursion) is modelled with `Option`/`Except`; `none` /
  `.error` means the original has no well-defined result there.
* Mutable aliasing that the step logic actually relies on (toggling a door
  object that is referenced both by the grid and by the `fwd_cells` snapshot
  list) is modelled by explicitly writing the updated object back to both.
* Fields that are written but never read by the modelled logic
  (`init_pos`, `cur_pos`, rendering caches) are omitted, as are the reward
  value (a float never read back into the state) and the observation
  dictionary wrappers around the image arrays.
-/

set_option maxRecDepth 4000

namespace MiniGrid

/-- Color indices, `COLOR_TO_IDX`: red 0, green 1, blue 2, purple 3,
yellow 4, grey 5. A color is kept as its raw index; valid colors are `< 6`
(the `WorldObj.__init__` assertion). -/
abbrev Color := Nat

/-- The closed set of grid entities (class `WorldObj` and its subclasses).
`Goal` and `Lava` have fixed colors (green resp. red) in their constructors,
so they carry no color field here. `box` carries its optional contents. -/
inductive WorldObj : Type
  | wall (color : Color)
  | floor (color : Color)
  | door (color : Color) (isOpen : Bool) (isLocked : Bool)
  | key (color : Color)
  | ball (color : Color)
  | box (color : Color) (contains : Option WorldObj)
  | goal
  | lava

/-- `WorldObj.can_overlap` and its overrides: true for Floor, Goal, Lava and
an open Door. -/
def WorldObj.canOverlap : WorldObj → Bool
  | .floor _ => true
  | .goal => true
  | .lava => true
  | .door _ isOpen _ => isOpen
  | _ => false

/-- `WorldObj.see_behind` and its overrides: false for Wall and a non-open
Door. -/
def WorldObj.seeBehind : WorldObj → Bool
  | .wall _ => false
  | .door _ isOpen _ => isOpen
  | _ => true

/-- The color index of an object (`self.color` through `COLOR_TO_IDX`);
Goal is constructed green (1) and Lava red (0). -/
def WorldObj.color : WorldObj → Color
  | .wall c => c
  | .floor c => c
  | .door c _ _ => c
  | .key c => c
  | .ball c => c
  | .box c _ => c
  | .goal => 1
  | .lava => 0

/-- `OBJECT_TO_IDX[self.type]` for the concrete subclasses. -/
def WorldObj.typeIdx : WorldObj → Nat
  | .wall _ => 2
  | .floor _ => 3
  | .door _ _ _ => 4
  | .key _ => 5
  | .ball _ => 6
  | .box _ _ => 7
  | .goal => 8
  | .lava => 9

/-- `WorldObj.ma_can_pickup` and its overrides: Key, Ball and Box can be
picked up exactly by the agent whose assigned color
`IDX_TO_COLOR[agent_id % len(COLOR_NAMES)]` equals the object color. -/
def WorldObj.maCanPickup (o : WorldObj) (agentId : Nat) : Bool :=
  match o with
  | .key c => agentId % 6 == c
  | .ball c => agentId % 6 == c
  | .box c _ => agentId % 6 == c
  | _ => false

/-- The `.is_open` attribute. In the engine it is only read on objects that
passed `ma_check_toggle`, which are Doors; other variants give `false`. -/
def WorldObj.isOpenAttr : WorldObj → Bool
  | .door _ isOpen _ => isOpen
  | _ => false

/-- `WorldObj.ma_check_toggle` and the `Door` override: a locked door checks
that the toggling agent carries a Key of the door color; an unlocked door
always passes; every non-door object refuses (base-class `return False`). -/
def WorldObj.maCheckToggle (o : WorldObj) (carrying : Option WorldObj) : Bool :=
  match o with
  | .door c _ isLocked =>
      if isLocked then
        match carrying with
        | some (.key kc) => kc == c
        | _ => false
      else true
  | _ => false

/-- `WorldObj.ma_toggle` and the `Door` override. The result is the returned
Bool together with the updated in-place object when the call mutated it
(`none` when nothing was mutated). `Box` does NOT override `ma_toggle`, so a
Box falls to the base-class no-op returning `False`. -/
def WorldObj.maToggle (o : WorldObj) (carrying : Option WorldObj) :
    Bool × Option WorldObj :=
  match o with
  | .door c isOpen isLocked =>
      if isLocked then
        match carrying with
        | some (.key kc) =>
            if kc == c then (true, some (.door c true false)) else (false, none)
        | _ => (false, none)
      else (true, some (.door c (!isOpen) isLocked))
  | _ => (false, none)

/-- `WorldObj.encode` and the `Door.encode` override: the 3-tuple
(type index, color index, state), where a door state is 0 when open, else 2
when locked, else 1. -/
def WorldObj.encode : WorldObj → Nat × Nat × Nat
  | .door c isOpen isLocked => (4, c, if isOpen then 0 else if isLocked then 2 else 1)
  | o => (o.typeIdx, o.color, 0)

/-- `WorldObj.decode`. The two dictionary lookups (`IDX_TO_OBJECT[type_idx]`,
`IDX_TO_COLOR[color_idx]`) raise `KeyError` for indices outside the fixed
maps, and the final `assert False, "unknown object type"` fires for every
named type that the if/elif chain does not construct — which is exactly the
reserved type `agent` (index 10). Both failure modes are `Except.error`. -/
def WorldObj.decode (typeIdx colorIdx state : Nat) : Except String (Option WorldObj) :=
  if typeIdx > 10 then .error "KeyError: IDX_TO_OBJECT"
  else if colorIdx > 5 then .error "KeyError: IDX_TO_COLOR"
  else if typeIdx == 1 || typeIdx == 0 then .ok none
  else
    let isOpen := state == 0
    let isLocked := state == 2
    if typeIdx == 2 then .ok (some (.wall colorIdx))
    else if typeIdx == 3 then .ok (some (.floor colorIdx))
    else if typeIdx == 6 then .ok (some (.ball colorIdx))
    else if typeIdx == 5 then .ok (some (.key colorIdx))
    else if typeIdx == 7 then .ok (some (.box colorIdx none))
    else if typeIdx == 4 then .ok (some (.door colorIdx isOpen isLocked))
    else if typeIdx == 8 then .ok (some .goal)
    else if typeIdx == 9 then .ok (some .lava)
    else .error "unknown object type in decode"

/-! ## The world grid (class `Grid`) -/

/-- Class `Grid`: a width × height array of optional entities, stored
row-major as in the source (`self.grid[j * self.width + i]`). -/
structure Grid : Type where
  width : Nat
  height : Nat
  cells : List (Option WorldObj)

/-- `Grid.get` for coordinates with the bounds assertion satisfied; out of
range coordinates give `none` here, but every caller below guards the bounds
exactly where the source does (its `assert`). -/
def Grid.get (g : Grid) (i j : Int) : Option WorldObj :=
  if 0 ≤ i ∧ i < (g.width : Int) ∧ 0 ≤ j ∧ j < (g.height : Int) then
    g.cells.getD (j.toNat * g.width + i.toNat) none
  else none

/-- The bounds test of `Grid.get` / `Grid.set` asserts. -/
def Grid.inBounds (g : Grid) (i j : Int) : Bool :=
  0 ≤ i && i < (g.width : Int) && 0 ≤ j && j < (g.height : Int)

/-- `Grid.set`: every use below is at in-bounds coordinates (the source
assertion). -/
def Grid.set (g : Grid) (i j : Int) (v : Option WorldObj) : Grid :=
  { g with cells := g.cells.set (j.toNat * g.width + i.toNat) v }

/-- The encoded observation array: a width × height × 3 `uint8` array,
stored C-contiguously as numpy does (`array[i, j]` at flat index
`i * height + j`). -/
structure EncArray : Type where
  width : Nat
  height : Nat
  data : List (Nat × Nat × Nat)

/-- `array[i, j]` of an encoded array. -/
def EncArray.at (a : EncArray) (i j : Nat) : Nat × Nat × Nat :=
  a.data.getD (i * a.height + j) (0, 0, 0)

/-- `Grid.encode`: each cell inside the visibility mask is written as its
object encoding, an empty visible cell as `(1, 0, 0)`; cells outside the
mask keep the zero initialization `(0, 0, 0)` ("unseen"). The default
`vis_mask=None` of the source is the all-true mask. -/
def Grid.encode (g : Grid) (vis : Nat → Nat → Bool) : EncArray :=
  { width := g.width, height := g.height,
    data := (List.range (g.width * g.height)).map (fun k =>
      let i := k / g.height
      let j := k % g.height
      if vis i j then
        match g.get i j with
        | none => (1, 0, 0)
        | some v => v.encode
      else (0, 0, 0)) }

/-- `Grid.decode`: rebuild a grid from an encoded array, cell (i, j) of the
grid from `array[i, j]`, propagating the fatal errors of `WorldObj.decode`.
The vis-mask half of the return value is true where the type channel is not
the "unseen" index 0. -/
def Grid.decode (a : EncArray) : Except String (Grid × (Nat → Nat → Bool)) :=
  ((List.range (a.width * a.height)).mapM (fun k =>
    WorldObj.decode (a.at (k % a.width) (k / a.width)).1
      (a.at (k % a.width) (k / a.width)).2.1
      (a.at (k % a.width) (k / a.width)).2.2)).map
    (fun cells =>
      ({ width := a.width, height := a.height, cells := cells },
        fun i j => (a.at i j).1 != 0))

/-! ## Claim C8: codec round trip -/

/-- The encoding of one grid cell as written by `Grid.encode` inside the
mask: an object encoding, or `(1, 0, 0)` for an empty cell. -/
def encCell : Option WorldObj → Nat × Nat × Nat
  | none => (1, 0, 0)
  | some v => v.encode

/-- What `WorldObj.decode` reconstructs from an encoded cell: the same
entity, except that a Box loses its contents (the codec does not serialize
them). -/
def decodeOfEncode : Option WorldObj → Option WorldObj
  | some (.box c _) => some (.box c none)
  | x => x

/-- Two cells agree on entity type, color and state — precisely the three
channels of `WorldObj.encode`. -/
def matchTCS (x y : Option WorldObj) : Prop :=
  x.map WorldObj.encode = y.map WorldObj.encode

/-- A cell the codec claim quantifies over: a valid color, and a door in one
of the three states open/closed/locked (i.e. not the unconstructible-by-
decode open-and-locked combination). -/
def cellWF : Option WorldObj → Prop
  | none => True
  | some o =>
      o.color ≤ 5 ∧
      match o with
      | .door _ isOpen isLocked => ¬(isOpen = true ∧ isLocked = true)
      | _ => True

/-! ## The multi-agent environment and the turn-resolution engine -/

/-- `MultiAgentMiniGridEnv.Actions`. -/
inductive MAction : Type
  | left
  | right
  | forward
  | pickup
  | drop
  | toggle
  | done
deriving DecidableEq

/-- `DIR_TO_VEC`: 0 right, 1 down, 2 left, 3 up. `dir_vec` asserts the
direction is below 4; `step` below checks that before using this. -/
def dirVec : Nat → Int × Int
  | 0 => (1, 0)
  | 1 => (0, 1)
  | 2 => (-1, 0)
  | _ => (0, -1)

/-- The state of a `MultiAgentMiniGridEnv` that the step and observation
logic reads and writes. -/
structure MAEnv : Type where
  grid : Grid
  agentPoses : List (Int × Int)
  agentDirs : List Nat
  carrying : List (Option WorldObj)
  stepCount : Nat
  maxSteps : Nat
  seeThroughWalls : Bool
  agentViewSize : Nat

def MAEnv.numAgents (e : MAEnv) : Nat := e.agentPoses.length

def MAEnv.pos (e : MAEnv) (i : Nat) : Int × Int := e.agentPoses.getD i (0, 0)

def MAEnv.dir (e : MAEnv) (i : Nat) : Nat := e.agentDirs.getD i 0

/-- `front_pos`: the agent position plus its direction vector. -/
def MAEnv.fwdPos (e : MAEnv) (i : Nat) : Int × Int :=
  (((e.pos i).1 + (dirVec (e.dir i)).1), ((e.pos i).2 + (dirVec (e.dir i)).2))

/-- `fwd_cells[i] = self.grid.get(*fwd_poses[i])` (snapshot). -/
def MAEnv.fwdCell (e : MAEnv) (i : Nat) : Option WorldObj :=
  e.grid.get (e.fwdPos i).1 (e.fwdPos i).2

def MAEnv.carryingAt (e : MAEnv) (i : Nat) : Option WorldObj :=
  e.carrying.getD i none

/-- `actions[i]` (the step precondition `len(actions) = numAgents` is
checked by `step`). -/
def actAt (acts : List MAction) (i : Nat) : MAction := acts.getD i .done

/-- The `curr_poses` dict of `step`: position ↦ the agent occupying it.
Built by insertion in agent order, so on (ill-formed) duplicate positions
the later agent wins, exactly as the Python dict. -/
def currAgent (e : MAEnv) (p : Int × Int) : Option Nat :=
  (List.range e.numAgents).foldl
    (fun acc i => if e.pos i = p then some i else acc) none

/-- The `next_poses` dict: agents whose action would end at `p` — a
`forward` mover maps to its forward cell, every other agent to its own
current cell. The lists are in agent-id order like the dict values. -/
def nextPoses (e : MAEnv) (acts : List MAction) (p : Int × Int) : List Nat :=
  (List.range e.numAgents).filter
    (fun i => (if actAt acts i = .forward then e.fwdPos i else e.pos i) = p)

/-- The `drop_locations` dict: agents attempting `drop` whose forward cell
is `p` (membership in the dict is non-emptiness of this list). -/
def dropLoc (e : MAEnv) (acts : List MAction) (p : Int × Int) : List Nat :=
  (List.range e.numAgents).filter
    (fun i => actAt acts i = .drop ∧ e.fwdPos i = p)

/-- The `pickup_locations` dict: agents attempting `pickup` whose forward
cell holds an object they may pick up (`ma_can_pickup`) at `p`. -/
def pickupLoc (e : MAEnv) (acts : List MAction) (p : Int × Int) : List Nat :=
  (List.range e.numAgents).filter
    (fun i => decide (actAt acts i = .pickup) &&
      (match e.fwdCell i with
       | some o => o.maCanPickup i
       | none => false) && decide (e.fwdPos i = p))

/-- The `close_door_locations` dict: agents attempting `toggle` on a cell at
`p` whose occupant passes `ma_check_toggle` and is currently open. -/
def closeDoorLoc (e : MAEnv) (acts : List MAction) (p : Int × Int) : List Nat :=
  (List.range e.numAgents).filter
    (fun i => decide (actAt acts i = .toggle) &&
      (match e.fwdCell i with
       | some o => o.maCheckToggle (e.carryingAt i) && o.isOpenAttr
       | none => false) && decide (e.fwdPos i = p))

/-- The `open_door_locations` dict: as above but for a non-open occupant. -/
def openDoorLoc (e : MAEnv) (acts : List MAction) (p : Int × Int) : List Nat :=
  (List.range e.numAgents).filter
    (fun i => decide (actAt acts i = .toggle) &&
      (match e.fwdCell i with
       | some o => o.maCheckToggle (e.carryingAt i) && !o.isOpenAttr
       | none => false) && decide (e.fwdPos i = p))

/-- `MultiAgentMiniGridEnv.collision_checker`, with an explicit recursion
fuel. All dictionary arguments of the Python function are recomputed from
the pre-tick snapshot `e` by the definitions above, exactly as `step` builds
them before validation. The source recursion has no depth guard; `none`
models running out of fuel, i.e. a call of the original that never returns.
A membership test `p in d` together with `len(d[p]) == 1` is rendered as the
length test alone, and `p in d and i in d[p]` as the `contains` test alone
(membership of an element implies the key is present). -/
def collisionChecker (e : MAEnv) (acts : List MAction) :
    Nat → Nat → Option Bool
  | 0, _ => none
  | fuel + 1, i =>
    let a := actAt acts i
    -- Unintruding action is always valid
    if a = .left ∨ a = .right ∨ a = .done then some true
    -- Forward action
    else if a = .forward then
      let fp := e.fwdPos i
      -- World allows agent to move forward
      if (e.fwdCell i).isNone ||
          (match e.fwdCell i with
           | some o => o.canOverlap
           | none => true) ||
          (pickupLoc e acts fp).length == 1 ||
          (openDoorLoc e acts fp).length == 1 then
        -- Other agents trying to access same location, so fail
        if (nextPoses e acts fp).length > 1 || !(dropLoc e acts fp).isEmpty ||
            !(closeDoorLoc e acts fp).isEmpty then
          some false
        else
          -- Other agent currently in spot: recursively check if they move
          match currAgent e fp with
          | some j =>
              -- Agents cannot swap head-on
              if !(nextPoses e acts (e.pos i)).isEmpty &&
                  (nextPoses e acts (e.pos i)).contains j then
                some false
              else collisionChecker e acts fuel j
          | none => some true
      else some false
    -- Drop action
    else if a = .drop then
      let fp := e.fwdPos i
      if ((e.fwdCell i).isNone || (pickupLoc e acts fp).length == 1) &&
          (e.carryingAt i).isSome then
        if !(nextPoses e acts fp).isEmpty || (dropLoc e acts fp).length > 1 then
          some false
        else
          match currAgent e fp with
          | some j => collisionChecker e acts fuel j
          | none => some true
      else some false
    -- Pickup action
    else if a = .pickup then
      let fp := e.fwdPos i
      if (pickupLoc e acts fp).contains i && (pickupLoc e acts fp).length == 1 then
        some true
      else some false
    -- Toggle action (the enumeration is closed, so this is the last case);
    -- anything falling through the two door tests hits the final
    -- `return False`
    else
      let fp := e.fwdPos i
      if (closeDoorLoc e acts fp).contains i &&
          (closeDoorLoc e acts fp).length == 1 then
        if !(nextPoses e acts fp).isEmpty then some false
        else
          match currAgent e fp with
          | some j => collisionChecker e acts fuel j
          | none => some true
      else if (openDoorLoc e acts fp).contains i &&
          (openDoorLoc e acts fp).length == 1 then
        some true
      else some false

/-- The mutable state threaded through the apply loop of `step`: the live
grid, agent poses/dirs, carrying slots, the `fwd_cells` list (whose entries
alias grid cells: door toggles update both), and the `done` flag. -/
structure StepState : Type where
  grid : Grid
  poses : List (Int × Int)
  dirs : List Nat
  carrying : List (Option WorldObj)
  fwdCells : List (Option WorldObj)
  doneFlag : Bool

/-- Propagate an in-place mutation of the object at cell `fp` to every
`fwd_cells` entry that was read from that same cell (Python aliasing: all
agents whose forward position is `fp` hold the same object reference). -/
def syncFwdCells (e : MAEnv) (fcs : List (Option WorldObj)) (fp : Int × Int)
    (v : Option WorldObj) : List (Option WorldObj) :=
  (List.range fcs.length).map
    (fun k => if e.fwdPos k = fp then v else fcs.getD k none)

/-- The body of the apply loop of `MultiAgentMiniGridEnv.step` for one agent
(executed in agent-id order for every agent whose action the collision
checker validated). `none` models a crash of the original: checker fuel
exhaustion, or the `AttributeError` of a validated drop applied with an
empty carrying slot (`carrying_objects[i].cur_pos` on `None`; unreachable
because validation requires a carried object, but modelled faithfully). -/
def applyOne (e : MAEnv) (acts : List MAction) (fuel : Nat) (st : StepState)
    (i : Nat) : Option StepState :=
  match collisionChecker e acts fuel i with
  | none => none
  | some false => some st
  | some true =>
    let fp := e.fwdPos i
    match actAt acts i with
    | .left => some { st with dirs := st.dirs.set i ((st.dirs.getD i 0 + 3) % 4) }
    | .right => some { st with dirs := st.dirs.set i ((st.dirs.getD i 0 + 1) % 4) }
    | .forward =>
        -- the three sequential statements of the source, flattened: the move
        -- guard updates the pose, the goal test and the lava test each set done
        let fc := st.fwdCells.getD i none
        some { st with
          poses :=
            if fc.isNone ||
                (match fc with
                 | some o => o.canOverlap
                 | none => true) ||
                (pickupLoc e acts fp).length == 1 then
              st.poses.set i fp
            else st.poses,
          doneFlag := st.doneFlag ||
            (match fc with
             | some o => o.typeIdx == 8
             | none => false) ||
            (match fc with
             | some o => o.typeIdx == 9
             | none => false) }
    | .pickup =>
        if (pickupLoc e acts fp).contains i && (pickupLoc e acts fp).length == 1 then
          if (st.carrying.getD i none).isNone then
            some { st with
              carrying := st.carrying.set i (st.fwdCells.getD i none),
              grid := st.grid.set fp.1 fp.2 none }
          else some st
        else some st
    | .drop =>
        if ((st.fwdCells.getD i none).isNone && (st.carrying.getD i none).isSome) ||
            (pickupLoc e acts fp).length == 1 then
          match st.carrying.getD i none with
          | none => none
          | some c =>
              some { st with
                grid := st.grid.set fp.1 fp.2 (some c),
                carrying := st.carrying.set i none }
        else some st
    | .toggle =>
        match st.fwdCells.getD i none with
        | none => some st
        | some o =>
            match (o.maToggle (st.carrying.getD i none)).2 with
            | none => some st
            | some o' =>
                some { st with
                  grid := st.grid.set fp.1 fp.2 (some o'),
                  fwdCells := syncFwdCells e st.fwdCells fp (some o') }
    | .done => some st

/-- `MultiAgentMiniGridEnv.step`. The leading guards model the source
assertions that would otherwise fire mid-step (one action per agent, agent
state lists aligned, directions below 4 for `dir_vec`, forward cells inside
the grid for `grid.get`); `none` means the original raises or never
returns. Reward is a float read by no later state; it and the final
`gen_obs()` call (pure observation computation) are not part of the
post-state, which is the environment plus the `done` flag. -/
def MAEnv.step (e : MAEnv) (acts : List MAction) (fuel : Nat) :
    Option (MAEnv × Bool) :=
  if acts.length = e.numAgents ∧ e.agentDirs.length = e.numAgents ∧
      e.carrying.length = e.numAgents ∧
      (∀ i ∈ List.range e.numAgents, e.dir i < 4) ∧
      (∀ i ∈ List.range e.numAgents,
        e.grid.inBounds (e.fwdPos i).1 (e.fwdPos i).2 = true) then
    let init : StepState :=
      { grid := e.grid, poses := e.agentPoses, dirs := e.agentDirs,
        carrying := e.carrying,
        fwdCells := (List.range e.numAgents).map (fun i => e.fwdCell i),
        doneFlag := false }
    match (List.range e.numAgents).foldlM (fun st i => applyOne e acts fuel st i) init with
    | none => none
    | some fin =>
        some ({ e with
          grid := fin.grid, agentPoses := fin.poses, agentDirs := fin.dirs,
          carrying := fin.carrying, stepCount := e.stepCount + 1 },
          fin.doneFlag || (e.stepCount + 1 ≥ e.maxSteps))
  else none

/-! ## The visibility engine and observation generation -/

/-- `Grid.rotate_left`: a new grid with swapped dimensions; the source sets
`new(j, newHeight-1-i) = old(i, j)`, so the cell `(i', j')` of the result is
`old(width-1-j', i')`. -/
def Grid.rotateLeft (g : Grid) : Grid :=
  ⟨g.height, g.width,
    (List.range (g.height * g.width)).map (fun k =>
      let i : Nat := k % g.height
      let j : Nat := k / g.height
      g.get ((g.width : Int) - 1 - (j : Int)) (i : Int))⟩

/-- `Grid.slice`: a width × height window anchored at (topX, topY),
substituting a synthetic grey Wall for every requested cell outside the
grid bounds (never fails). -/
def Grid.slice (g : Grid) (topX topY : Int) (width height : Nat) : Grid :=
  ⟨width, height,
    (List.range (width * height)).map (fun k =>
      let x : Int := topX + ((k % width : Nat) : Int)
      let y : Int := topY + ((k / width : Nat) : Int)
      if 0 ≤ x ∧ x < (g.width : Int) ∧ 0 ≤ y ∧ y < (g.height : Int) then g.get x y
      else some (.wall 5))⟩

/-- `mask[a, b] = True` on a boolean mask represented as a function. -/
def mset (m : Nat → Nat → Bool) (a b : Nat) : Nat → Nat → Bool :=
  fun i j => if i = a ∧ j = b then true else m i j

/-- One iteration of the first (left-to-right) scan of `process_vis` at row
`j`, column `i` (for `i` in `range(0, width-1)`): an already-visible,
non-opaque cell marks its right and forward-diagonal neighbors visible. -/
def visStep1 (g : Grid) (j : Nat) (m : Nat → Nat → Bool) (i : Nat) :
    Nat → Nat → Bool :=
  if !(m i j) then m
  else if (match g.get (i : Int) (j : Int) with
           | some c => !c.seeBehind
           | none => false) then m
  else
    let m1 := mset m (i + 1) j
    if 0 < j then mset (mset m1 (i + 1) (j - 1)) i (j - 1) else m1

/-- One iteration of the second (right-to-left) scan of `process_vis` at
row `j`, column `i` (for `i` in `reversed(range(1, width))`). -/
def visStep2 (g : Grid) (j : Nat) (m : Nat → Nat → Bool) (i : Nat) :
    Nat → Nat → Bool :=
  if !(m i j) then m
  else if (match g.get (i : Int) (j : Int) with
           | some c => !c.seeBehind
           | none => false) then m
  else
    let m1 := mset m (i - 1) j
    if 0 < j then mset (mset m1 (i - 1) (j - 1)) i (j - 1) else m1

/-- The occlusion-propagation mask of `Grid.process_vis`: the anchor cell is
visible, then rows are processed back-to-front (`reversed(range(height))`)
with the two directional scans. -/
def Grid.processVisMask (g : Grid) (a : Nat × Nat) : Nat → Nat → Bool :=
  (List.range g.height).reverse.foldl
    (fun m j =>
      let m1 := (List.range (g.width - 1)).foldl (fun m i => visStep1 g j m i) m
      ((List.range' 1 (g.width - 1)).reverse).foldl (fun m i => visStep2 g j m i) m1)
    (mset (fun _ _ => false) a.1 a.2)

/-- `Grid.process_vis`: compute the visibility mask and clear every cell not
marked visible to `None` (the final double loop); returns the mutated grid
together with the mask. -/
def Grid.processVis (g : Grid) (a : Nat × Nat) : Grid × (Nat → Nat → Bool) :=
  let mask := g.processVisMask a
  (⟨g.width, g.height,
    (List.range (g.width * g.height)).map (fun k =>
      if mask (k % g.width) (k / g.width) then g.cells.getD k none else none)⟩,
   mask)

/-- `get_view_exts`: the window extents for an agent, by facing direction
(the final branch is direction 3; `gen_obs_grid` guards direction < 4 where
the source asserts). -/
def MAEnv.getViewExts (e : MAEnv) (i : Nat) : Int × Int × Int × Int :=
  let a : Int := (e.agentViewSize : Int)
  let h : Int := ((e.agentViewSize / 2 : Nat) : Int)
  let p := e.pos i
  let tx : Int :=
    if e.dir i = 0 then p.1
    else if e.dir i = 1 then p.1 - h
    else if e.dir i = 2 then p.1 - a + 1
    else p.1 - h
  let ty : Int :=
    if e.dir i = 0 then p.2 - h
    else if e.dir i = 1 then p.2
    else if e.dir i = 2 then p.2 - h
    else p.2 - a + 1
  (tx, ty, tx + a, ty + a)

/-- `MultiAgentMiniGridEnv.gen_obs_grid`, with the environment threaded
through explicitly: the source method only reads `self` — every write
(`process_vis` clearing cells, the carried-object overlay `grid.set`)
targets the local sliced/rotated copy — so the environment comes back
untouched, which the frame theorem below records. The direction-in-range
assertion of `get_view_exts`/`dir_vec` is the `none` guard. -/
def MAEnv.genObsGrid (e : MAEnv) (i : Nat) :
    Option (MAEnv × Grid × (Nat → Nat → Bool)) :=
  if e.dir i < 4 then
    let ext := e.getViewExts i
    let g0 := e.grid.slice ext.1 ext.2.1 e.agentViewSize e.agentViewSize
    let g1 := (List.range (e.dir i + 1)).foldl (fun g _ => g.rotateLeft) g0
    let gv :=
      if !e.seeThroughWalls then
        g1.processVis (e.agentViewSize / 2, e.agentViewSize - 1)
      else (g1, fun _ _ => true)
    -- the carried-object overlay at the agent's anchor cell
    some (e, (gv.1.set ((gv.1.width / 2 : Nat) : Int) ((gv.1.height - 1 : Nat) : Int)
      (e.carryingAt i)), gv.2)
  else none

/-! ## The communicative variant (`CommunicativeMultiAgentMiniGridEnv`) -/

/-- `Grid.ma_encode`: like `encode`, but a visible empty cell occupied by a
(listed) agent is written as the reserved agent marker — type 10, the
agent's identity modulo the 6-color palette, and its facing. Entries of
`agentPoses` are (position, agent id, agent direction); the first matching
entry wins, as in the source scan-with-break. -/
def Grid.maEncode (g : Grid) (vis : Nat → Nat → Bool)
    (agentPoses : List ((Int × Int) × Nat × Nat)) : EncArray :=
  ⟨g.width, g.height,
    (List.range (g.width * g.height)).map (fun k =>
      let i := k / g.height
      let j := k % g.height
      if vis i j then
        match g.get (i : Int) (j : Int) with
        | some v => v.encode
        | none =>
            match agentPoses.find? (fun ap => ap.1 == ((i : Int), (j : Int))) with
            | some ap => (10, ap.2.1 % 6, ap.2.2)
            | none => (1, 0, 0)
      else (0, 0, 0))⟩

/-- One `np.rot90` of a mask whose second dimension is `cols`:
`result[i][j] = m[j][cols-1-i]`. -/
def rot90 (cols : Nat) (m : Nat → Nat → Bool) : Nat → Nat → Bool :=
  fun i j => m j (cols - 1 - i)

/-- `np.rot90(mask, k)` with the (rows, cols) shape tracked through the
rotations. -/
def rot90k : Nat → Nat × Nat → (Nat → Nat → Bool) → (Nat × Nat) × (Nat → Nat → Bool)
  | 0, sh, m => (sh, m)
  | k + 1, (r, c), m => rot90k k (c, r) (rot90 c m)

/-- `gen_obs_grid_comm`: the clipped window slice, rotation into the
agent frame, occlusion processing, rotation back, and the fill of the
window into a full-grid observation grid and mask, followed by the
carried-object overlay at the agent's own cell. The window extents are
clamped to the grid, so `topX`/`topY` are nonnegative and `.toNat` is
exact; a negative `agent_rel_x` (impossible in states the environment
creates) would wrap in numpy and is clamped here. -/
def MAEnv.genObsGridComm (e : MAEnv) (i : Nat) :
    Option (Grid × (Nat → Nat → Bool)) :=
  if e.dir i < 4 then
    let ext := e.getViewExts i
    let topX := max ext.1 0
    let topY := max ext.2.1 0
    let botX := min ext.2.2.1 (e.grid.width : Int)
    let botY := min ext.2.2.2 (e.grid.height : Int)
    let g0 := e.grid.slice topX topY (botX - topX).toNat (botY - topY).toNat
    let g1 := (List.range (e.dir i + 1)).foldl (fun g _ => g.rotateLeft) g0
    let agentRelX : Int :=
      if e.dir i = 0 then (e.pos i).2 - topY
      else if e.dir i = 1 then botX - 1 - (e.pos i).1
      else if e.dir i = 2 then botY - 1 - (e.pos i).2
      else (e.pos i).1 - topX
    let gv :=
      if !e.seeThroughWalls then g1.processVis (agentRelX.toNat, g1.height - 1)
      else (g1, fun _ _ => true)
    let g2 := (List.range (3 - e.dir i)).foldl (fun g _ => g.rotateLeft) gv.1
    let vmask := (rot90k (e.dir i + 1) (gv.1.width, gv.1.height) gv.2).2
    let tX := topX.toNat
    let tY := topY.toNat
    let fg := (List.range g2.width).foldl (fun fg xx =>
        (List.range g2.height).foldl (fun fg yy =>
          fg.set ((xx : Int) + topX) ((yy : Int) + topY)
            (g2.get (xx : Int) (yy : Int))) fg)
      e.grid
    let fmask : Nat → Nat → Bool := fun a b =>
      if tX ≤ a ∧ a < tX + g2.width ∧ tY ≤ b ∧ b < tY + g2.height then
        vmask (a - tX) (b - tY)
      else false
    some (fg.set (e.pos i).1 (e.pos i).2 (e.carryingAt i), fmask)
  else none

/-- The inner copy loop of `gen_obs_comm` for one (receiver, sender) pair
that passed the signal and distance gates: every cell unseen by the
receiver (`vis`) whose entry in the sender's stored image is neither the
"unseen" type 0 nor the "agent" type 10 is overwritten with that stored
entry. -/
def commMergeOne (vis : Nat → Nat → Bool) (past img : EncArray) : EncArray :=
  ⟨img.width, img.height,
    (List.range (img.width * img.height)).map (fun k =>
      let i := k / img.height
      let j := k % img.height
      if !(vis i j) && (past.at i j).1 != 0 && (past.at i j).1 != 10 then
        past.at i j
      else img.at i j)⟩

/-- `CommunicativeMultiAgentMiniGridEnv.gen_obs_comm`. `origPoses` is
`self.orig_agent_poses` (the pre-tick positions), `pastObs` the stored
previous-tick images `self.past_obs`, `commActs` the communicate flags
(`None` on reset). Returns (combined private observations, shared
observations); each receiver's merge reads only its own freshly computed
image and mask plus the stored state, so computing the list per agent first
is the same as the source's single loop. `np.sqrt(d) < 3` on integer
squared distance `d` is exactly `d < 9`. -/
def MAEnv.genObsComm (e : MAEnv) (origPoses : List (Int × Int))
    (pastObs : List EncArray) (commActs : Option (List Bool)) :
    Option (List EncArray × List EncArray) :=
  match (List.range e.numAgents).mapM (fun i =>
    match e.genObsGridComm i with
    | none => none
    | some gv =>
        some (gv.1.maEncode gv.2 ((List.range e.numAgents).filterMap (fun oi =>
          if oi = i then none else some (e.pos oi, oi, e.dir oi))), gv.2)) with
  | none => none
  | some obsList =>
      let shared := (List.range e.numAgents).map (fun recv =>
        match commActs with
        | none => (obsList.getD recv (⟨0, 0, []⟩, fun _ _ => true)).1
        | some cl =>
            (List.range cl.length).foldl (fun img s =>
              if s ≠ recv ∧ cl.getD s false = true ∧
                  ((origPoses.getD recv (0, 0)).1 - (origPoses.getD s (0, 0)).1) ^ 2 +
                  ((origPoses.getD recv (0, 0)).2 - (origPoses.getD s (0, 0)).2) ^ 2 < 9 then
                commMergeOne (obsList.getD recv (⟨0, 0, []⟩, fun _ _ => true)).2
                  (pastObs.getD s ⟨0, 0, []⟩) img
              else img)
              (obsList.getD recv (⟨0, 0, []⟩, fun _ _ => true)).1)
      some (obsList.map Prod.fst, shared)

/-- `Box.toggle` (the single-agent interaction path, `WorldObj.toggle`
override): replace the box's grid cell by its contents and succeed. -/
def boxToggle (contents : Option WorldObj) (g : Grid) (p : Int × Int) :
    Bool × Grid :=
  (true, g.set p.1 p.2 contents)

/-! ## Concrete scenarios used by the concrete theorems -/

/-- A 4 × 4 grid whose only entity is a closed, unlocked blue door at
(2, 1). -/
def doorRaceGrid : Grid :=
  ⟨4, 4, [none, none, none, none,
          none, none, some (.door 2 false false), none,
          none, none, none, none,
          none, none, none, none]⟩

/-- Agent 0 at (1, 1) facing right (into the door cell), agent 1 at (0, 1)
facing right (into agent 0), agent 2 at (2, 0) facing down (into the door
cell). -/
def doorRaceEnv : MAEnv :=
  ⟨doorRaceGrid, [(1, 1), (0, 1), (2, 0)], [0, 0, 1], [none, none, none],
    0, 100, false, 7⟩

/-- Agents 0 and 1 move forward; agent 2 toggles the door open. -/
def doorRaceActs : List MAction := [.forward, .forward, .toggle]

/-- An empty 4 × 4 grid. -/
def ringGrid : Grid := ⟨4, 4, List.replicate 16 none⟩

/-- Four agents in a cycle: each one's forward cell is the next one's
current cell — (1,1)→(2,1)→(2,2)→(1,2)→(1,1). -/
def ringEnv : MAEnv :=
  ⟨ringGrid, [(1, 1), (2, 1), (2, 2), (1, 2)], [0, 1, 2, 3],
    [none, none, none, none], 0, 100, false, 7⟩

def ringActs : List MAction := [.forward, .forward, .forward, .forward]

/-- A 3 × 3 grid with a red box at (1, 0) containing a blue key. -/
def boxToggleGrid : Grid :=
  ⟨3, 3, [none, some (.box 0 (some (.key 2))), none,
          none, none, none, none, none, none]⟩

/-- A single agent at (0, 0) facing right, into the box cell. -/
def boxToggleEnv : MAEnv :=
  ⟨boxToggleGrid, [(0, 0)], [0], [none], 0, 100, false, 7⟩

/-- An empty 6 × 5 grid. -/
def openGrid : Grid := ⟨6, 5, List.replicate 30 none⟩

/-- Head-on pair: agent 0 at (2, 2) facing right, agent 1 at (3, 2) facing
left — each one's forward cell is the other's current cell. -/
def headOnEnv : MAEnv :=
  ⟨openGrid, [(2, 2), (3, 2)], [0, 2], [none, none], 0, 100, false, 7⟩

/-- Contested-cell pair: agent 0 at (2, 2) facing right and agent 1 at
(3, 3) facing up both target the empty cell (3, 2). -/
def contestedEnv : MAEnv :=
  ⟨openGrid, [(2, 2), (3, 3)], [0, 3], [none, none], 0, 100, false, 7⟩

/-- The post-state of the head-on scenario (for the concrete witness). -/
def headOnResult : MAEnv × Bool :=
  (headOnEnv.step [.forward, .forward] 9).getD (headOnEnv, false)

/-- The post-state of the contested-cell scenario (for the concrete
witness). -/
def contestedResult : MAEnv × Bool :=
  (contestedEnv.step [.forward, .forward] 9).getD (contestedEnv, false)

/-- A 3 × 3 empty grid for the communication scenario. -/
def commGrid : Grid := ⟨3, 3, List.replicate 9 none⟩

/-- Communicative scenario: receiver 0 at (0,0) and sender 1 at (1,0), both
facing right, view size 3, unobstructed sight; the receiver's clipped
window covers rows 0–1, so row 2 is unseen this tick. -/
def commEnv : MAEnv := ⟨commGrid, [(0, 0), (1, 0)], [0, 0], [none, none], 0, 100, true, 3⟩

/-- A stored previous-tick observation that saw the whole (empty) grid:
every cell is the seen-empty encoding (1, 0, 0). -/
def pastAllEmpty : EncArray := ⟨3, 3, List.replicate 9 (1, 0, 0)⟩

/-- The (combined, shared) observation pair of the communication scenario
when only agent 1 signals. -/
def commObsResult : List EncArray × List EncArray :=
  (commEnv.genObsComm [(0, 0), (1, 0)] [pastAllEmpty, pastAllEmpty]
    (some [false, true])).getD ([], [])

/-! ## Theorems -/

/-- Claim C1 (counterexample). The claim says decoding the reserved "agent"
type index 10 yields no entity rather than failing; but `WorldObj.decode`
reaches the `assert False, "unknown object type in decode"` branch for it:
`IDX_TO_OBJECT[10] = 'agent'` is not `empty`/`unseen` and no constructor case
matches it, so decode is fatal at (10, 0, 0). -/
theorem decode_agent_marker_is_fatal :
    WorldObj.decode 10 0 0 = .error "unknown object type in decode" := rfl

/-- Claim C1 (amended). Decoding type index 0 ("unseen") or 1 ("empty") with
a valid color index yields no entity; decoding the "agent" marker (10) is a
fatal decode error just like any type index outside the fixed enumeration,
and a color index outside 0..5 is fatal as well. -/
theorem decode_unseen_empty_agent (c s : Nat) (hc : c ≤ 5) :
    WorldObj.decode 0 c s = .ok none ∧
    WorldObj.decode 1 c s = .ok none ∧
    WorldObj.decode 10 c s = .error "unknown object type in decode" ∧
    (∀ t, t > 10 → WorldObj.decode t c s = .error "KeyError: IDX_TO_OBJECT") ∧
    (∀ t, WorldObj.decode t 6 s ≠ .ok none) := by
  refine ⟨?_, ?_, ?_, ?_, ?_⟩
  · simp [WorldObj.decode, Nat.not_lt.mpr hc]
  · simp [WorldObj.decode, Nat.not_lt.mpr hc]
  · simp [WorldObj.decode, Nat.not_lt.mpr hc]
  · intro t ht
    simp [WorldObj.decode, ht]
  · intro t
    unfold WorldObj.decode
    split
    · simp
    · simp

/-- Claim C1 (witness for the amended theorem), at color 3, state 2. -/
theorem decode_unseen_empty_agent_witness :
    WorldObj.decode 0 3 2 = .ok none ∧
    WorldObj.decode 1 3 2 = .ok none ∧
    WorldObj.decode 10 3 2 = .error "unknown object type in decode" ∧
    (∀ t, t > 10 → WorldObj.decode t 3 2 = .error "KeyError: IDX_TO_OBJECT") ∧
    (∀ t, WorldObj.decode t 6 2 ≠ .ok none) :=
  decode_unseen_empty_agent 3 2 (by decide)

/-- Decoding the encoding of a well-formed cell succeeds and reproduces the
cell up to box contents; in particular type, color and state agree. -/
theorem decode_encCell (x : Option WorldObj) (hx : cellWF x) :
    WorldObj.decode (encCell x).1 (encCell x).2.1 (encCell x).2.2 =
      .ok (decodeOfEncode x) ∧ matchTCS x (decodeOfEncode x) := by
  match x with
  | none => exact ⟨rfl, rfl⟩
  | some o =>
    obtain ⟨hc, hstate⟩ := hx
    match o with
    | .wall c =>
        have h5 : ¬c > 5 := by exact Nat.not_lt.mpr hc
        exact ⟨by simp [encCell, WorldObj.encode, WorldObj.decode, WorldObj.typeIdx,
          WorldObj.color, h5, decodeOfEncode], rfl⟩
    | .floor c =>
        have h5 : ¬c > 5 := by exact Nat.not_lt.mpr hc
        exact ⟨by simp [encCell, WorldObj.encode, WorldObj.decode, WorldObj.typeIdx,
          WorldObj.color, h5, decodeOfEncode], rfl⟩
    | .key c =>
        have h5 : ¬c > 5 := by exact Nat.not_lt.mpr hc
        exact ⟨by simp [encCell, WorldObj.encode, WorldObj.decode, WorldObj.typeIdx,
          WorldObj.color, h5, decodeOfEncode], rfl⟩
    | .ball c =>
        have h5 : ¬c > 5 := by exact Nat.not_lt.mpr hc
        exact ⟨by simp [encCell, WorldObj.encode, WorldObj.decode, WorldObj.typeIdx,
          WorldObj.color, h5, decodeOfEncode], rfl⟩
    | .box c v =>
        have h5 : ¬c > 5 := by exact Nat.not_lt.mpr hc
        exact ⟨by simp [encCell, WorldObj.encode, WorldObj.decode, WorldObj.typeIdx,
          WorldObj.color, h5, decodeOfEncode], rfl⟩
    | .goal => exact ⟨rfl, rfl⟩
    | .lava => exact ⟨rfl, rfl⟩
    | .door c isOpen isLocked =>
        have h5 : ¬c > 5 := by exact Nat.not_lt.mpr hc
        match isOpen, isLocked with
        | true, true => exact absurd ⟨rfl, rfl⟩ hstate
        | true, false =>
            exact ⟨by simp [encCell, WorldObj.encode, WorldObj.decode, h5, decodeOfEncode], rfl⟩
        | false, true =>
            exact ⟨by simp [encCell, WorldObj.encode, WorldObj.decode, h5, decodeOfEncode], rfl⟩
        | false, false =>
            exact ⟨by simp [encCell, WorldObj.encode, WorldObj.decode, h5, decodeOfEncode], rfl⟩

theorem getD_map_range {α : Type} (n k : Nat) (f : Nat → α) (d : α) (hk : k < n) :
    ((List.range n).map f).getD k d = f k := by
  rw [List.getD_eq_getElem?_getD]
  simp [List.getElem?_map, List.getElem?_range, hk]

theorem mapM_ok_of_forall {α β : Type} (l : List α) (f : α → Except String β)
    (g : α → β) (h : ∀ x ∈ l, f x = .ok (g x)) : l.mapM f = .ok (l.map g) := by
  rw [← List.mapM'_eq_mapM]
  induction l with
  | nil => rfl
  | cons a l ih =>
      have ha : f a = .ok (g a) := h a (by simp)
      have hl : l.mapM' f = .ok (l.map g) := ih (fun x hx => h x (by simp [hx]))
      simp only [List.mapM', ha, hl]
      rfl

theorem Grid.get_natCast (g : Grid) (i j : Nat) (hi : i < g.width) (hj : j < g.height) :
    g.get i j = g.cells.getD (j * g.width + i) none := by
  unfold Grid.get
  have hb : (0:Int) ≤ (i:Int) ∧ (i:Int) < (g.width : Int) ∧ (0:Int) ≤ (j:Int) ∧
      (j:Int) < (g.height : Int) := by
    refine ⟨by positivity, ?_, by positivity, ?_⟩ <;> exact_mod_cast by omega
  rw [if_pos hb]
  simp

theorem encode_at (g : Grid) (i j : Nat) (hi : i < g.width) (hj : j < g.height) :
    (g.encode (fun _ _ => true)).at i j = encCell (g.get i j) := by
  have h0 : 0 < g.height := Nat.lt_of_le_of_lt (Nat.zero_le j) hj
  have hlt : i * g.height + j < g.width * g.height := by
    calc i * g.height + j < i * g.height + g.height := by omega
    _ = (i + 1) * g.height := by ring
    _ ≤ g.width * g.height := Nat.mul_le_mul_right _ hi
  have hdiv : (i * g.height + j) / g.height = i := by
    rw [show i * g.height + j = j + i * g.height by ring,
      Nat.add_mul_div_right _ _ h0, Nat.div_eq_of_lt hj, Nat.zero_add]
  have hmod : (i * g.height + j) % g.height = j := by
    rw [show i * g.height + j = j + i * g.height by ring,
      Nat.add_mul_mod_self_right, Nat.mod_eq_of_lt hj]
  show ((g.encode (fun _ _ => true)).data.getD (i * g.height + j) (0, 0, 0)) = _
  unfold Grid.encode
  rw [getD_map_range _ _ _ _ hlt]
  simp only [hdiv, hmod, if_pos]
  cases g.get i j <;> rfl

/-- Claim C8. Codec round trip: encoding a grid of well-formed cells (valid
colors; doors in one of the three states open/closed/locked) with the
fully-true visibility mask and decoding the result succeeds and reproduces
every cell's entity type, color and state exactly. -/
theorem grid_codec_roundtrip (g : Grid) (hlen : g.cells.length = g.width * g.height)
    (hwf : ∀ x ∈ g.cells, cellWF x) :
    ∃ g' vis, Grid.decode (g.encode (fun _ _ => true)) = .ok (g', vis) ∧
      g'.width = g.width ∧ g'.height = g.height ∧
      ∀ i j : Nat, i < g.width → j < g.height →
        matchTCS (g.get (i : Int) (j : Int)) (g'.get (i : Int) (j : Int)) := by
  have hwfAt : ∀ k : Nat, cellWF (g.cells.getD k none) := by
    intro k
    by_cases hk : k < g.cells.length
    · rw [List.getD_eq_getElem _ _ hk]
      exact hwf _ (List.getElem_mem hk)
    · rw [List.getD_eq_default _ _ (Nat.le_of_not_lt hk)]
      trivial
  have hw0 : ∀ k, k < g.width * g.height → 0 < g.width := by
    intro k hk
    rcases Nat.eq_zero_or_pos g.width with h0 | h0
    · rw [h0] at hk; omega
    · exact h0
  -- the decoded cell list
  have hmapM :
      (List.range ((g.encode (fun _ _ => true)).width * (g.encode (fun _ _ => true)).height)).mapM
        (fun k =>
          WorldObj.decode
            ((g.encode (fun _ _ => true)).at (k % (g.encode (fun _ _ => true)).width)
              (k / (g.encode (fun _ _ => true)).width)).1
            ((g.encode (fun _ _ => true)).at (k % (g.encode (fun _ _ => true)).width)
              (k / (g.encode (fun _ _ => true)).width)).2.1
            ((g.encode (fun _ _ => true)).at (k % (g.encode (fun _ _ => true)).width)
              (k / (g.encode (fun _ _ => true)).width)).2.2) =
      .ok ((List.range (g.width * g.height)).map
        (fun k => decodeOfEncode (g.cells.getD k none))) := by
    have harr : (g.encode (fun _ _ => true)).width = g.width := rfl
    have harr2 : (g.encode (fun _ _ => true)).height = g.height := rfl
    rw [harr, harr2]
    apply mapM_ok_of_forall
    intro k hk
    rw [List.mem_range] at hk
    have hwpos : 0 < g.width := hw0 k hk
    have hi : k % g.width < g.width := Nat.mod_lt _ hwpos
    have hj : k / g.width < g.height := by
      rw [Nat.div_lt_iff_lt_mul hwpos]
      calc k < g.width * g.height := hk
      _ = g.height * g.width := Nat.mul_comm _ _
    have hk' : (k / g.width) * g.width + k % g.width = k := by
      rw [Nat.mul_comm]
      exact Nat.div_add_mod k g.width
    have hat : (g.encode (fun _ _ => true)).at (k % g.width) (k / g.width) =
        encCell (g.cells.getD k none) := by
      rw [encode_at g _ _ hi hj, Grid.get_natCast g _ _ hi hj, hk']
    rw [hat]
    exact (decode_encCell _ (hwfAt k)).1
  refine ⟨⟨g.width, g.height, (List.range (g.width * g.height)).map
      (fun k => decodeOfEncode (g.cells.getD k none))⟩,
    fun i j => ((g.encode (fun _ _ => true)).at i j).1 != 0, ?_, rfl, rfl, ?_⟩
  · unfold Grid.decode
    rw [hmapM]
    rfl
  · intro i j hi hj
    have hlt : j * g.width + i < g.width * g.height := by
      calc j * g.width + i < j * g.width + g.width := by omega
      _ = (j + 1) * g.width := by ring
      _ ≤ g.height * g.width := Nat.mul_le_mul_right _ hj
      _ = g.width * g.height := Nat.mul_comm _ _
    have hg' : (Grid.mk g.width g.height
        ((List.range (g.width * g.height)).map
          (fun k => decodeOfEncode (g.cells.getD k none)))).get (i : Int) (j : Int) =
        decodeOfEncode (g.cells.getD (j * g.width + i) none) := by
      rw [Grid.get_natCast (Grid.mk g.width g.height
        ((List.range (g.width * g.height)).map
          (fun k => decodeOfEncode (g.cells.getD k none)))) i j hi hj]
      exact getD_map_range _ _ _ _ hlt
    rw [hg', Grid.get_natCast g i j hi hj]
    exact (decode_encCell _ (hwfAt _)).2

/-- Claim C8 (witness): a concrete 2 × 2 grid with a locked door, a box with
contents, and an empty cell round-trips. -/
theorem grid_codec_roundtrip_witness :
    ∃ g' vis,
      Grid.decode ((Grid.mk 2 2 [some (.door 3 false true), some (.box 0 (some (.key 2))),
        none, some .goal]).encode (fun _ _ => true)) = .ok (g', vis) ∧
      g'.width = (Grid.mk 2 2 [some (.door 3 false true), some (.box 0 (some (.key 2))),
        none, some .goal]).width ∧
      g'.height = (Grid.mk 2 2 [some (.door 3 false true), some (.box 0 (some (.key 2))),
        none, some .goal]).height ∧
      ∀ i j : Nat, i < (Grid.mk 2 2 [some (.door 3 false true), some (.box 0 (some (.key 2))),
        none, some .goal]).width →
        j < (Grid.mk 2 2 [some (.door 3 false true), some (.box 0 (some (.key 2))),
          none, some .goal]).height →
        matchTCS ((Grid.mk 2 2 [some (.door 3 false true), some (.box 0 (some (.key 2))),
          none, some .goal]).get (i : Int) (j : Int)) (g'.get (i : Int) (j : Int)) :=
  grid_codec_roundtrip _ rfl (by
    intro x hx
    simp only [List.mem_cons, List.not_mem_nil, or_false] at hx
    rcases hx with h | h | h | h <;> subst h <;> simp [cellWF, WorldObj.color])

/-! ### Membership in the location maps -/

theorem mem_nextPoses {e : MAEnv} {acts : List MAction} {p : Int × Int} {i : Nat} :
    i ∈ nextPoses e acts p ↔ i < e.numAgents ∧
      (if actAt acts i = .forward then e.fwdPos i else e.pos i) = p := by
  unfold nextPoses
  simp [List.mem_filter, List.mem_range]

theorem mem_closeDoorLoc {e : MAEnv} {acts : List MAction} {p : Int × Int} {i : Nat} :
    i ∈ closeDoorLoc e acts p ↔ i < e.numAgents ∧ actAt acts i = .toggle ∧
      (match e.fwdCell i with
       | some o => o.maCheckToggle (e.carryingAt i) && o.isOpenAttr
       | none => false) = true ∧ e.fwdPos i = p := by
  unfold closeDoorLoc
  simp [List.mem_filter, List.mem_range, and_assoc]

theorem mem_openDoorLoc {e : MAEnv} {acts : List MAction} {p : Int × Int} {i : Nat} :
    i ∈ openDoorLoc e acts p ↔ i < e.numAgents ∧ actAt acts i = .toggle ∧
      (match e.fwdCell i with
       | some o => o.maCheckToggle (e.carryingAt i) && !o.isOpenAttr
       | none => false) = true ∧ e.fwdPos i = p := by
  unfold openDoorLoc
  simp [List.mem_filter, List.mem_range, and_assoc]

theorem mem_pickupLoc {e : MAEnv} {acts : List MAction} {p : Int × Int} {i : Nat} :
    i ∈ pickupLoc e acts p ↔ i < e.numAgents ∧ actAt acts i = .pickup ∧
      (match e.fwdCell i with
       | some o => o.maCanPickup i
       | none => false) = true ∧ e.fwdPos i = p := by
  unfold pickupLoc
  simp [List.mem_filter, List.mem_range, and_assoc]

theorem currAgent_foldl_spec (e : MAEnv) (p : Int × Int) (P : Nat → Prop) :
    ∀ (l : List Nat) (acc : Option Nat),
      (∀ j, acc = some j → P j) → (∀ j ∈ l, e.pos j = p → P j) →
      ∀ j, l.foldl (fun a i => if e.pos i = p then some i else a) acc = some j → P j := by
  intro l
  induction l with
  | nil =>
      intro acc hacc _ j hj
      exact hacc j hj
  | cons a l ih =>
      intro acc hacc hl j hj
      simp only [List.foldl_cons] at hj
      refine ih _ ?_ (fun x hx hpx => hl x (by simp [hx]) hpx) j hj
      intro k hk
      by_cases hpa : e.pos a = p
      · rw [if_pos hpa] at hk
        injection hk with hk
        subst hk
        exact hl a (by simp) hpa
      · rw [if_neg hpa] at hk
        exact hacc k hk

/-- If `curr_poses` maps a position to agent `j`, that agent exists and is
at that position. -/
theorem currAgent_spec {e : MAEnv} {p : Int × Int} {j : Nat}
    (h : currAgent e p = some j) : j < e.numAgents ∧ e.pos j = p := by
  unfold currAgent at h
  exact currAgent_foldl_spec e p (fun j => j < e.numAgents ∧ e.pos j = p) _ none
    (by simp) (fun x hx hpx => ⟨List.mem_range.mp hx, hpx⟩) j h

theorem currAgent_foldl_ne_none (e : MAEnv) (p : Int × Int) :
    ∀ (l : List Nat) (acc : Option Nat),
      ((∃ j ∈ l, e.pos j = p) ∨ acc ≠ none) →
      l.foldl (fun a i => if e.pos i = p then some i else a) acc ≠ none := by
  intro l
  induction l with
  | nil =>
      intro acc h
      rcases h with h | h
      · simp at h
      · simpa using h
  | cons a l ih =>
      intro acc h
      simp only [List.foldl_cons]
      by_cases hpa : e.pos a = p
      · rw [if_pos hpa]
        exact ih _ (Or.inr (by simp))
      · rw [if_neg hpa]
        rcases h with h | h
        · rcases h with ⟨j, hj, hpj⟩
          rcases List.mem_cons.mp hj with rfl | hj
          · exact absurd hpj hpa
          · exact ih _ (Or.inl ⟨j, hj, hpj⟩)
        · exact ih _ (Or.inr h)

/-- If some agent is at position `p`, `curr_poses` has an entry for `p`. -/
theorem currAgent_ne_none {e : MAEnv} {p : Int × Int} {j : Nat}
    (hj : j < e.numAgents) (hp : e.pos j = p) : currAgent e p ≠ none := by
  unfold currAgent
  exact currAgent_foldl_ne_none e p _ none (Or.inl ⟨j, List.mem_range.mpr hj, hp⟩)

/-! ### Claim C2 -/

/-- Claim C2 (failing input). Single occupancy is broken by a validated
move whose application is skipped: agent 0 faces the closed door that agent
2 opens this tick, so validation grants agent 0 forward through the
`open_door_locations` disjunct and then grants agent 1 the move into agent
0's cell because agent 0 "vacates" it; but the apply loop's move condition
lacks the open-door disjunct and runs before agent 2's toggle, so agent 0
stays while agent 1 moves in: agents 0 and 1 both end at (1, 1). -/
theorem step_door_race_collides :
    (doorRaceEnv.step doorRaceActs 8).map
      (fun r => (r.1.agentPoses.getD 0 (0, 0), r.1.agentPoses.getD 1 (0, 0))) =
      some ((1, 1), (1, 1)) := rfl

/-! ### Claim C3 -/

theorem ring_checker_unfolds : ∀ fuel : Nat,
    collisionChecker ringEnv ringActs fuel 0 = none ∧
    collisionChecker ringEnv ringActs fuel 1 = none ∧
    collisionChecker ringEnv ringActs fuel 2 = none ∧
    collisionChecker ringEnv ringActs fuel 3 = none := by
  intro fuel
  induction fuel with
  | zero => exact ⟨rfl, rfl, rfl, rfl⟩
  | succ n ih =>
      refine ⟨?_, ?_, ?_, ?_⟩
      · exact (show collisionChecker ringEnv ringActs (n + 1) 0 =
          collisionChecker ringEnv ringActs n 1 from rfl).trans ih.2.1
      · exact (show collisionChecker ringEnv ringActs (n + 1) 1 =
          collisionChecker ringEnv ringActs n 2 from rfl).trans ih.2.2.1
      · exact (show collisionChecker ringEnv ringActs (n + 1) 2 =
          collisionChecker ringEnv ringActs n 3 from rfl).trans ih.2.2.2
      · exact (show collisionChecker ringEnv ringActs (n + 1) 3 =
          collisionChecker ringEnv ringActs n 0 from rfl).trans ih.1

/-- Claim C3. In a ring of four agents (three or more; a unit-step ring of
exactly three is geometrically impossible on the grid), each issuing
move-forward into the next ring member's cell, the recursive vacate check of
`collision_checker` never returns: it exhausts every recursion fuel, the
pairwise head-on test never firing because no two ring members target each
other mutually. -/
theorem ring_collision_checker_diverges (fuel : Nat) :
    collisionChecker ringEnv ringActs fuel 0 = none :=
  (ring_checker_unfolds fuel).1

/-! ### Claim C6 -/

/-- Claim C6 (counterexample). A toggle aimed at a Box is not resolved to a
substitution by the multi-agent engine: with a single agent facing a box
containing a key, the collision checker rejects the toggle (a Box passes
neither door-location test because its `ma_check_toggle` is the base-class
`False`), and after the tick the grid cell still holds the box. -/
theorem box_toggle_leaves_box_in_place :
    (boxToggleEnv.step [.toggle] 5).map (fun r => r.1.grid.get 1 0) =
      some (some (.box 0 (some (.key 2)))) ∧
    collisionChecker boxToggleEnv [.toggle] 5 0 = some false :=
  ⟨rfl, rfl⟩

/-- Claim C6 (amended). In the multi-agent turn-resolution engine a toggle
whose forward cell holds a Box is never validated (so the cell is never
substituted by that path); the contents substitution is the behavior of the
single-agent `Box.toggle`, which replaces the box's cell by its contents
and succeeds. -/
theorem box_toggle_never_validated (e : MAEnv) (acts : List MAction) (i : Nat)
    (c : Color) (v : Option WorldObj)
    (hact : actAt acts i = .toggle) (hcell : e.fwdCell i = some (.box c v)) :
    (∀ m, collisionChecker e acts (m + 1) i = some false) ∧
    (∀ (g : Grid) (p : Int × Int), boxToggle v g p = (true, g.set p.1 p.2 v)) := by
  refine ⟨?_, fun g p => rfl⟩
  intro m
  have hnc : i ∉ closeDoorLoc e acts (e.fwdPos i) := by
    intro hmem
    rcases mem_closeDoorLoc.mp hmem with ⟨-, -, hmatch, -⟩
    rw [hcell] at hmatch
    simp [WorldObj.maCheckToggle] at hmatch
  have hno : i ∉ openDoorLoc e acts (e.fwdPos i) := by
    intro hmem
    rcases mem_openDoorLoc.mp hmem with ⟨-, -, hmatch, -⟩
    rw [hcell] at hmatch
    simp [WorldObj.maCheckToggle] at hmatch
  simp only [collisionChecker, hact]
  simp [hnc, hno]

/-- Claim C6 (witness for the amended theorem): the box-toggle scenario
environment discharges the hypotheses. -/
theorem box_toggle_never_validated_witness :
    (∀ m, collisionChecker boxToggleEnv [.toggle] (m + 1) 0 = some false) ∧
    (∀ (g : Grid) (p : Int × Int),
      boxToggle (some (.key 2)) g p = (true, g.set p.1 p.2 (some (.key 2)))) :=
  box_toggle_never_validated boxToggleEnv [.toggle] 0 0 (some (.key 2)) rfl rfl

/-! ### Frame lemmas for the apply loop -/

theorem getD_set_ne {α : Type} (l : List α) (i k : Nat) (v d : α) (h : i ≠ k) :
    (l.set i v).getD k d = l.getD k d := by
  rw [List.getD_eq_getElem?_getD, List.getD_eq_getElem?_getD,
    List.getElem?_set_ne h]

/-- An agent whose action the checker rejects changes nothing. -/
theorem applyOne_of_invalid (e : MAEnv) (acts : List MAction) (fuel : Nat)
    (st : StepState) (i : Nat)
    (h : collisionChecker e acts fuel i = some false) :
    applyOne e acts fuel st i = some st := by
  unfold applyOne
  rw [h]

/-- Applying one agent's action never moves or turns another agent. -/
theorem applyOne_frame (e : MAEnv) (acts : List MAction) (fuel : Nat)
    (st st' : StepState) (i k : Nat) (hk : k ≠ i)
    (h : applyOne e acts fuel st i = some st') :
    st'.poses.getD k (0, 0) = st.poses.getD k (0, 0) ∧
    st'.dirs.getD k 0 = st.dirs.getD k 0 := by
  have hik : i ≠ k := fun hh => hk hh.symm
  unfold applyOne at h
  split at h
  · exact absurd h (by simp)
  · cases h
    exact ⟨rfl, rfl⟩
  · split at h
    -- left
    · cases h
      exact ⟨rfl, getD_set_ne _ _ _ _ _ hik⟩
    -- right
    · cases h
      exact ⟨rfl, getD_set_ne _ _ _ _ _ hik⟩
    -- forward
    · cases h
      refine ⟨?_, rfl⟩
      split
      · exact getD_set_ne _ _ _ _ _ hik
      · rfl
    -- pickup
    · dsimp only at h
      by_cases h1 : ((pickupLoc e acts (e.fwdPos i)).contains i &&
          (pickupLoc e acts (e.fwdPos i)).length == 1) = true
      · rw [if_pos h1] at h
        by_cases h2 : (st.carrying.getD i none).isNone = true
        · rw [if_pos h2] at h; cases h; exact ⟨rfl, rfl⟩
        · rw [if_neg h2] at h; cases h; exact ⟨rfl, rfl⟩
      · rw [if_neg h1] at h; cases h; exact ⟨rfl, rfl⟩
    -- drop
    · dsimp only at h
      by_cases h1 : (((st.fwdCells.getD i none).isNone &&
          (st.carrying.getD i none).isSome) ||
          (pickupLoc e acts (e.fwdPos i)).length == 1) = true
      · rw [if_pos h1] at h
        cases hc : st.carrying.getD i none with
        | none => rw [hc] at h; exact absurd h (by simp)
        | some c => rw [hc] at h; cases h; exact ⟨rfl, rfl⟩
      · rw [if_neg h1] at h; cases h; exact ⟨rfl, rfl⟩
    -- toggle
    · dsimp only at h
      cases hf : st.fwdCells.getD i none with
      | none => rw [hf] at h; cases h; exact ⟨rfl, rfl⟩
      | some o =>
          rw [hf] at h
          dsimp only at h
          cases hm : (o.maToggle (st.carrying.getD i none)).2 with
          | none => rw [hm] at h; cases h; exact ⟨rfl, rfl⟩
          | some o2 => rw [hm] at h; cases h; exact ⟨rfl, rfl⟩
    -- done
    · cases h
      exact ⟨rfl, rfl⟩

/-- Through the whole apply loop, an agent whose action the checker rejects
keeps its pose and direction. -/
theorem foldlM_frame (e : MAEnv) (acts : List MAction) (fuel : Nat) (A : Nat)
    (hA : collisionChecker e acts fuel A = some false) :
    ∀ (l : List Nat) (st fin : StepState),
      l.foldlM (fun s i => applyOne e acts fuel s i) st = some fin →
      fin.poses.getD A (0, 0) = st.poses.getD A (0, 0) ∧
      fin.dirs.getD A 0 = st.dirs.getD A 0 := by
  intro l
  induction l with
  | nil =>
      intro st fin h
      cases h
      exact ⟨rfl, rfl⟩
  | cons i l ih =>
      intro st fin h
      rw [List.foldlM_cons] at h
      cases happ : applyOne e acts fuel st i with
      | none => rw [happ] at h; exact absurd h (by simp)
      | some st1 =>
          rw [happ] at h
          simp only [Option.bind_eq_bind, Option.some_bind] at h
          have h2 := ih st1 fin h
          by_cases hiA : i = A
          · subst hiA
            rw [applyOne_of_invalid e acts fuel st i hA] at happ
            cases happ
            exact h2
          · have h1 := applyOne_frame e acts fuel st st1 i A
              (fun hh => hiA hh.symm) happ
            exact ⟨h2.1.trans h1.1, h2.2.trans h1.2⟩

/-- With no recursion fuel at all, `step` on a populated environment gives
no post-state (the very first checker call exhausts it). -/
theorem step_zero (e : MAEnv) (acts : List MAction) (hn : 0 < e.numAgents) :
    e.step acts 0 = none := by
  unfold MAEnv.step
  split
  · obtain ⟨m, hm⟩ : ∃ m, e.numAgents = m + 1 := ⟨e.numAgents - 1, by omega⟩
    rw [hm, List.range_succ_eq_map]
    rfl
  · rfl

/-- If `step` produced a post-state and the checker rejected agent `A`'s
action (at the fuel `step` used), agent `A`'s pose and direction are
unchanged in it. -/
theorem step_frame_of_invalid (e : MAEnv) (acts : List MAction) (fuel : Nat)
    (A : Nat) (r : MAEnv × Bool)
    (hcc : collisionChecker e acts fuel A = some false)
    (hstep : e.step acts fuel = some r) :
    r.1.agentPoses.getD A (0, 0) = e.pos A ∧ r.1.agentDirs.getD A 0 = e.dir A := by
  unfold MAEnv.step at hstep
  split at hstep
  · dsimp only at hstep
    cases hfold : (List.range e.numAgents).foldlM
        (fun st i => applyOne e acts fuel st i)
        { grid := e.grid, poses := e.agentPoses, dirs := e.agentDirs,
          carrying := e.carrying,
          fwdCells := (List.range e.numAgents).map (fun i => e.fwdCell i),
          doneFlag := false } with
    | none =>
        rw [hfold] at hstep
        exact absurd hstep (by simp)
    | some fin =>
        rw [hfold] at hstep
        cases hstep
        exact foldlM_frame e acts fuel A hcc _ _ _ hfold
  · exact absurd hstep (by simp)

/-! ### Claim C4: head-on swap always fails -/

/-- The checker rejects a forward move straight into an agent that is
moving forward straight back (the explicit pairwise head-on test). -/
theorem checker_headon_false (e : MAEnv) (acts : List MAction) (A B m : Nat)
    (hAB : A ≠ B) (hB : B < e.numAgents)
    (hdist : ∀ i, i < e.numAgents → ∀ j, j < e.numAgents → i ≠ j → e.pos i ≠ e.pos j)
    (haA : actAt acts A = .forward) (haB : actAt acts B = .forward)
    (hfA : e.fwdPos A = e.pos B) (hfB : e.fwdPos B = e.pos A) :
    collisionChecker e acts (m + 1) A = some false := by
  have hmemB : B ∈ nextPoses e acts (e.pos A) :=
    mem_nextPoses.mpr ⟨hB, by rw [if_pos haB]; exact hfB⟩
  have hnA : currAgent e (e.pos B) ≠ none := currAgent_ne_none hB rfl
  simp only [collisionChecker, haA]
  rw [if_neg (by simp), if_pos trivial]
  split
  · split
    · rfl
    · rw [hfA]
      cases hcur : currAgent e (e.pos B) with
      | none => exact absurd hcur hnA
      | some j =>
          obtain ⟨hjn, hjp⟩ := currAgent_spec hcur
          have hjB : j = B := by
            by_contra hne
            exact hdist j hjn B hB hne hjp
          dsimp only
          rw [hjB]
          have hcond : (!(nextPoses e acts (e.pos A)).isEmpty &&
              (nextPoses e acts (e.pos A)).contains B) = true := by
            have h1 : (nextPoses e acts (e.pos A)).contains B = true :=
              List.elem_eq_true_of_mem hmemB
            have h2 : (nextPoses e acts (e.pos A)).isEmpty = false := by
              rw [List.isEmpty_eq_false]
              exact List.ne_nil_of_mem hmemB
            rw [h1, h2]
            rfl
          rw [if_pos hcond]

  · rfl

/-- Claim C4. Head-on swap always fails: whenever two agents with distinct
positions (as all agents have) face each other — each one's forward cell is
the other's current cell — and both issue move-forward, the checker rejects
both moves and after the tick both agents' positions and directions are
unchanged, in every pre-tick state and intent profile around them. -/
theorem head_on_swap_fails (e : MAEnv) (acts : List MAction) (fuel : Nat)
    (A B : Nat) (r : MAEnv × Bool)
    (hAB : A ≠ B) (hA : A < e.numAgents) (hB : B < e.numAgents)
    (hdist : ∀ i, i < e.numAgents → ∀ j, j < e.numAgents → i ≠ j → e.pos i ≠ e.pos j)
    (haA : actAt acts A = .forward) (haB : actAt acts B = .forward)
    (hfA : e.fwdPos A = e.pos B) (hfB : e.fwdPos B = e.pos A)
    (hstep : e.step acts fuel = some r) :
    r.1.agentPoses.getD A (0, 0) = e.pos A ∧
    r.1.agentPoses.getD B (0, 0) = e.pos B ∧
    r.1.agentDirs.getD A 0 = e.dir A ∧
    r.1.agentDirs.getD B 0 = e.dir B := by
  cases fuel with
  | zero =>
      rw [step_zero e acts (Nat.lt_of_le_of_lt (Nat.zero_le A) hA)] at hstep
      exact absurd hstep (by simp)
  | succ m =>
      have hccA : collisionChecker e acts (m + 1) A = some false :=
        checker_headon_false e acts A B m hAB hB hdist haA haB hfA hfB
      have hccB : collisionChecker e acts (m + 1) B = some false :=
        checker_headon_false e acts B A m (fun hh => hAB hh.symm) hA hdist
          haB haA hfB hfA
      obtain ⟨hp1, hd1⟩ := step_frame_of_invalid e acts (m + 1) A r hccA hstep
      obtain ⟨hp2, hd2⟩ := step_frame_of_invalid e acts (m + 1) B r hccB hstep
      exact ⟨hp1, hp2, hd1, hd2⟩

/-- Claim C4 (witness): the concrete head-on pair at (2,2) facing right and
(3,2) facing left both stay in place with directions intact. -/
theorem head_on_swap_fails_witness :
    headOnResult.1.agentPoses.getD 0 (0, 0) = (2, 2) ∧
    headOnResult.1.agentPoses.getD 1 (0, 0) = (3, 2) ∧
    headOnResult.1.agentDirs.getD 0 0 = 0 ∧
    headOnResult.1.agentDirs.getD 1 0 = 2 := by
  have hstep : headOnEnv.step [.forward, .forward] 9 = some headOnResult := rfl
  obtain ⟨h1, h2, h3, h4⟩ := head_on_swap_fails headOnEnv [.forward, .forward] 9 0 1
    headOnResult (by decide) (by decide) (by decide) (by decide) rfl rfl rfl rfl hstep
  exact ⟨h1.trans rfl, h2.trans rfl, h3.trans rfl, h4.trans rfl⟩

/-! ### Claim C5: strict exclusion, no tie-break -/

theorem one_lt_length_of_two_mem {α : Type} {l : List α} {a b : α} (hab : a ≠ b)
    (ha : a ∈ l) (hb : b ∈ l) : 1 < l.length := by
  match l with
  | [] => simp at ha
  | [x] =>
      rw [List.mem_singleton] at ha hb
      exact absurd (ha.trans hb.symm) hab
  | x :: y :: ys =>
      simp only [List.length_cons]
      omega

/-- The checker rejects a forward move whose target cell is also the target
of another agent's forward move (the contested-cell test fires on a
`next_poses` entry longer than one). -/
theorem checker_contested_false (e : MAEnv) (acts : List MAction) (i j m : Nat)
    (hij : i ≠ j) (hi : i < e.numAgents) (hj : j < e.numAgents)
    (hai : actAt acts i = .forward) (haj : actAt acts j = .forward)
    (hsame : e.fwdPos i = e.fwdPos j) :
    collisionChecker e acts (m + 1) i = some false := by
  have hmi : i ∈ nextPoses e acts (e.fwdPos i) :=
    mem_nextPoses.mpr ⟨hi, by rw [if_pos hai]⟩
  have hmj : j ∈ nextPoses e acts (e.fwdPos i) :=
    mem_nextPoses.mpr ⟨hj, by rw [if_pos haj]; exact hsame.symm⟩
  have hlen : 1 < (nextPoses e acts (e.fwdPos i)).length :=
    one_lt_length_of_two_mem hij hmi hmj
  simp only [collisionChecker, hai]
  rw [if_neg (by simp), if_pos trivial]
  split
  · have hc : (decide ((nextPoses e acts (e.fwdPos i)).length > 1) ||
        !(dropLoc e acts (e.fwdPos i)).isEmpty ||
        !(closeDoorLoc e acts (e.fwdPos i)).isEmpty) = true := by
      rw [decide_eq_true hlen]
      rfl
    rw [if_pos hc]
  · rfl

/-- Claim C5. Strict exclusion with no tie-break: whenever two distinct
agents both issue move-forward into the same target cell, the collision
checker rejects each such agent's move at every recursion depth (there is no
winner), and after the tick that agent's position and direction are
unchanged — for every pre-tick state and intent profile, in particular for a
currently empty contested cell. -/
theorem contested_cell_all_fail (e : MAEnv) (acts : List MAction) (fuel : Nat)
    (i j : Nat) (r : MAEnv × Bool)
    (hij : i ≠ j) (hi : i < e.numAgents) (hj : j < e.numAgents)
    (hai : actAt acts i = .forward) (haj : actAt acts j = .forward)
    (hsame : e.fwdPos i = e.fwdPos j)
    (hstep : e.step acts fuel = some r) :
    (∀ m, collisionChecker e acts (m + 1) i = some false) ∧
    r.1.agentPoses.getD i (0, 0) = e.pos i ∧
    r.1.agentDirs.getD i 0 = e.dir i := by
  have hcc : ∀ m, collisionChecker e acts (m + 1) i = some false :=
    fun m => checker_contested_false e acts i j m hij hi hj hai haj hsame
  refine ⟨hcc, ?_⟩
  cases fuel with
  | zero =>
      rw [step_zero e acts (Nat.lt_of_le_of_lt (Nat.zero_le i) hi)] at hstep
      exact absurd hstep (by simp)
  | succ m =>
      exact step_frame_of_invalid e acts (m + 1) i r (hcc m) hstep

/-- Claim C5 (witness): the concrete contested pair — agent 0 at (2,2)
facing right and agent 1 at (3,3) facing up, both moving into the empty
cell (3,2) — both stay. -/
theorem contested_cell_all_fail_witness :
    (∀ m, collisionChecker contestedEnv [.forward, .forward] (m + 1) 0 = some false) ∧
    contestedResult.1.agentPoses.getD 0 (0, 0) = (2, 2) ∧
    contestedResult.1.agentDirs.getD 0 0 = 0 := by
  have hstep : contestedEnv.step [.forward, .forward] 9 = some contestedResult := rfl
  obtain ⟨h0, h1, h2⟩ := contested_cell_all_fail contestedEnv [.forward, .forward] 9 0 1
    contestedResult (by decide) (by decide) (by decide) rfl rfl rfl hstep
  exact ⟨h0, h1.trans rfl, h2.trans rfl⟩

/-! ### Claim C9: chain advance -/

/-- Claim C9. Chain advance: for every grid and every pre-tick state with
three agents in consecutive cells along a common facing direction `d`, on
empty cells, with the cell beyond the front agent inside the grid and empty,
when all three issue move-forward in one tick all three moves are validated
and each agent ends the tick shifted forward by one cell. -/
theorem chain_advance (W H : Nat) (cells : List (Option WorldObj)) (x y : Int)
    (d : Nat) (sc ms avs fuel : Nat) (stw : Bool) (hd : d < 4)
    (hb1 : (Grid.mk W H cells).inBounds (x + (dirVec d).1) (y + (dirVec d).2) = true)
    (hb2 : (Grid.mk W H cells).inBounds (x + (dirVec d).1 + (dirVec d).1)
      (y + (dirVec d).2 + (dirVec d).2) = true)
    (hb3 : (Grid.mk W H cells).inBounds (x + (dirVec d).1 + (dirVec d).1 + (dirVec d).1)
      (y + (dirVec d).2 + (dirVec d).2 + (dirVec d).2) = true)
    (hc1 : (Grid.mk W H cells).get (x + (dirVec d).1) (y + (dirVec d).2) = none)
    (hc2 : (Grid.mk W H cells).get (x + (dirVec d).1 + (dirVec d).1)
      (y + (dirVec d).2 + (dirVec d).2) = none)
    (hc3 : (Grid.mk W H cells).get (x + (dirVec d).1 + (dirVec d).1 + (dirVec d).1)
      (y + (dirVec d).2 + (dirVec d).2 + (dirVec d).2) = none) :
    ((MAEnv.mk (Grid.mk W H cells)
        [(x, y), (x + (dirVec d).1, y + (dirVec d).2),
         (x + (dirVec d).1 + (dirVec d).1, y + (dirVec d).2 + (dirVec d).2)]
        [d, d, d] [none, none, none] sc ms stw avs).step
      [.forward, .forward, .forward] (fuel + 4)).map (fun r => r.1.agentPoses) =
    some [(x + (dirVec d).1, y + (dirVec d).2),
          (x + (dirVec d).1 + (dirVec d).1, y + (dirVec d).2 + (dirVec d).2),
          (x + (dirVec d).1 + (dirVec d).1 + (dirVec d).1,
           y + (dirVec d).2 + (dirVec d).2 + (dirVec d).2)] := by
  rcases (by omega : d = 0 ∨ d = 1 ∨ d = 2 ∨ d = 3) with rfl | rfl | rfl | rfl <;>
  · simp only [dirVec] at hb1 hb2 hb3 hc1 hc2 hc3
    norm_num [add_assoc] at hb1 hb2 hb3 hc1 hc2 hc3
    unfold MAEnv.step
    rw [if_pos]
    · simp only [MAEnv.numAgents, List.length_cons, List.length_nil]
      norm_num
      simp [collisionChecker, applyOne, actAt, MAEnv.fwdPos, MAEnv.fwdCell, MAEnv.pos,
        MAEnv.dir, MAEnv.numAgents, MAEnv.carryingAt, dirVec, add_assoc, List.filter,
        List.getD, List.foldl, nextPoses, dropLoc, closeDoorLoc, openDoorLoc, pickupLoc,
        currAgent, hc1, hc2, hc3, List.foldlM, List.range_succ]
      rcases Nat.lt_or_ge (sc + 1) ms with hlt | hge
      · exact ⟨_, Or.inl ⟨rfl, hlt⟩, rfl⟩
      · exact ⟨_, Or.inr ⟨rfl, hge⟩, rfl⟩
    · refine ⟨rfl, rfl, rfl, ?_, ?_⟩
      · intro i hi
        simp only [MAEnv.numAgents, List.length_cons, List.length_nil, List.mem_range] at hi
        interval_cases i <;> simp [MAEnv.dir, List.getD]
      · intro i hi
        simp only [MAEnv.numAgents, List.length_cons, List.length_nil, List.mem_range] at hi
        interval_cases i <;>
          simp [MAEnv.fwdPos, MAEnv.pos, MAEnv.dir, dirVec, List.getD, add_assoc,
            hb1, hb2, hb3]

/-- Claim C9 (witness): the spec's example — agents at (0,0), (1,0), (2,0)
facing right on an empty 4 × 1 grid, all issuing move-forward, all shift
right by one. -/
theorem chain_advance_witness :
    ((MAEnv.mk (Grid.mk 4 1 [none, none, none, none])
        [((0 : Int), (0 : Int)), (0 + (dirVec 0).1, 0 + (dirVec 0).2),
         (0 + (dirVec 0).1 + (dirVec 0).1, 0 + (dirVec 0).2 + (dirVec 0).2)]
        [0, 0, 0] [none, none, none] 0 100 false 7).step
      [.forward, .forward, .forward] (0 + 4)).map (fun r => r.1.agentPoses) =
    some [(0 + (dirVec 0).1, 0 + (dirVec 0).2),
          (0 + (dirVec 0).1 + (dirVec 0).1, 0 + (dirVec 0).2 + (dirVec 0).2),
          (0 + (dirVec 0).1 + (dirVec 0).1 + (dirVec 0).1,
           0 + (dirVec 0).2 + (dirVec 0).2 + (dirVec 0).2)] :=
  chain_advance 4 1 [none, none, none, none] 0 0 0 0 100 7 0 false (by decide)
    (by decide) (by decide) (by decide) rfl rfl rfl

/-! ### Claim C10: observation generation never mutates the live world -/

theorem mset_true {m : Nat → Nat → Bool} {x y : Nat} (a b : Nat)
    (h : m x y = true) : mset m a b x y = true := by
  unfold mset
  split
  · rfl
  · exact h

theorem mset_self (m : Nat → Nat → Bool) (a b : Nat) : mset m a b a b = true := by
  unfold mset
  rw [if_pos ⟨rfl, rfl⟩]

theorem visStep1_mono {g : Grid} {j : Nat} {m : Nat → Nat → Bool} {x y : Nat}
    (i : Nat) (h : m x y = true) : visStep1 g j m i x y = true := by
  unfold visStep1
  split
  · exact h
  · split
    · exact h
    · dsimp only
      split
      · exact mset_true _ _ (mset_true _ _ (mset_true _ _ h))
      · exact mset_true _ _ h

theorem visStep2_mono {g : Grid} {j : Nat} {m : Nat → Nat → Bool} {x y : Nat}
    (i : Nat) (h : m x y = true) : visStep2 g j m i x y = true := by
  unfold visStep2
  split
  · exact h
  · split
    · exact h
    · dsimp only
      split
      · exact mset_true _ _ (mset_true _ _ (mset_true _ _ h))
      · exact mset_true _ _ h

theorem foldl_mask_mono {α : Type} (f : (Nat → Nat → Bool) → α → (Nat → Nat → Bool))
    (hf : ∀ m a (x y : Nat), m x y = true → f m a x y = true) :
    ∀ (l : List α) (m : Nat → Nat → Bool) (x y : Nat),
      m x y = true → (l.foldl f m) x y = true := by
  intro l
  induction l with
  | nil => intro m x y h; exact h
  | cons a l ih =>
      intro m x y h
      rw [List.foldl_cons]
      exact ih _ _ _ (hf m a x y h)

/-- The propagation scans only ever add visibility, so the anchor stays
visible. -/
theorem processVisMask_anchor (g : Grid) (a : Nat × Nat) :
    g.processVisMask a a.1 a.2 = true := by
  unfold Grid.processVisMask
  refine foldl_mask_mono _ ?_ _ _ _ _ (mset_self _ _ _)
  intro m j x y h
  dsimp only
  refine foldl_mask_mono _ (fun m i x y h => visStep2_mono i h) _ _ _ _ ?_
  exact foldl_mask_mono _ (fun m i x y h => visStep1_mono i h) _ _ _ _ h

/-- Every cell the mask does not cover is cleared to `None` in the grid
`process_vis` returns. -/
theorem processVis_cleared (g : Grid) (a : Nat × Nat) (x y : Nat)
    (hm : g.processVisMask a x y = false) :
    (g.processVis a).1.get (x : Int) (y : Int) = none := by
  unfold Grid.processVis Grid.get
  dsimp only
  split
  · rename_i hb
    obtain ⟨-, hxw, -, hyh⟩ := hb
    have hxw' : x < g.width := by exact_mod_cast hxw
    have hyh' : y < g.height := by exact_mod_cast hyh
    have hw0 : 0 < g.width := Nat.lt_of_le_of_lt (Nat.zero_le x) hxw'
    have hidx : y * g.width + x < g.width * g.height := by
      calc y * g.width + x < y * g.width + g.width := by omega
      _ = (y + 1) * g.width := by ring
      _ ≤ g.height * g.width := Nat.mul_le_mul_right _ hyh'
      _ = g.width * g.height := Nat.mul_comm _ _
    have hmod : (y * g.width + x) % g.width = x := by
      rw [show y * g.width + x = x + y * g.width by ring,
        Nat.add_mul_mod_self_right, Nat.mod_eq_of_lt hxw']
    have hdiv : (y * g.width + x) / g.width = y := by
      rw [show y * g.width + x = x + y * g.width by ring,
        Nat.add_mul_div_right _ _ hw0, Nat.div_eq_of_lt hxw', Nat.zero_add]
    rw [show ((y : Int).toNat * g.width + (x : Int).toNat) = y * g.width + x by simp]
    rw [getD_map_range _ _ _ _ hidx, hmod, hdiv, hm]
    rfl
  · rfl

/-- Writing one in-bounds cell does not change any other cell. -/
theorem Grid.get_set_ne_nat (g : Grid) (a b x y : Nat) (v : Option WorldObj)
    (ha : a < g.width) (hb : b < g.height) (hne : ¬(x = a ∧ y = b)) :
    (g.set (a : Int) (b : Int) v).get (x : Int) (y : Int) =
      g.get (x : Int) (y : Int) := by
  unfold Grid.set Grid.get
  dsimp only
  split
  · rename_i hbnd
    obtain ⟨-, hxw, -, hyh⟩ := hbnd
    have hxw' : x < g.width := by exact_mod_cast hxw
    have hw0 : 0 < g.width := Nat.lt_of_le_of_lt (Nat.zero_le x) hxw'
    have hyh' : y < g.height := by exact_mod_cast hyh
    have hidx : (b : Int).toNat * g.width + (a : Int).toNat ≠
        (y : Int).toNat * g.width + (x : Int).toNat := by
      simp only [Int.toNat_natCast]
      intro hcontra
      have h1 : (b * g.width + a) % g.width = (y * g.width + x) % g.width := by
        rw [hcontra]
      rw [show b * g.width + a = a + b * g.width by ring,
        show y * g.width + x = x + y * g.width by ring] at h1
      rw [Nat.add_mul_mod_self_right, Nat.add_mul_mod_self_right,
        Nat.mod_eq_of_lt ha, Nat.mod_eq_of_lt hxw'] at h1
      subst h1
      have h2 : b * g.width = y * g.width := by omega
      have h3 : b = y := Nat.eq_of_mul_eq_mul_right hw0 h2
      exact hne ⟨rfl, h3.symm⟩
    rw [List.getD_eq_getElem?_getD, List.getD_eq_getElem?_getD,
      List.getElem?_set_ne hidx]
  · rfl

/-- A fold of `rotate_left` keeps a square grid square with the same side. -/
theorem rotate_foldl_square (s : Nat) :
    ∀ (l : List Nat) (g : Grid), g.width = s → g.height = s →
      (l.foldl (fun g _ => g.rotateLeft) g).width = s ∧
      (l.foldl (fun g _ => g.rotateLeft) g).height = s := by
  intro l
  induction l with
  | nil => intro g hw hh; exact ⟨hw, hh⟩
  | cons a l ih =>
      intro g hw hh
      rw [List.foldl_cons]
      exact ih _ hh hw

/-- Claim C10. Observation generation never mutates the live world: for
every environment and agent (with a legal facing and the view size the
constructor asserts), `gen_obs_grid` — windowed slice, rotation, occlusion
processing via `process_vis`, carried-object overlay — returns the
environment exactly as it was (grid, agent poses, directions and carrying
slots included), and in the observation copy every cell not marked visible
is cleared to the unseen/empty state. -/
theorem gen_obs_grid_frame (e : MAEnv) (i : Nat) (hdir : e.dir i < 4)
    (hvs : 3 ≤ e.agentViewSize) :
    ∃ og vis, e.genObsGrid i = some (e, og, vis) ∧
      ∀ x y : Nat, vis x y = false → og.get (x : Int) (y : Int) = none := by
  unfold MAEnv.genObsGrid
  rw [if_pos hdir]
  by_cases hsw : e.seeThroughWalls
  · rw [hsw]
    refine ⟨_, _, rfl, ?_⟩
    intro x y hxy
    simp at hxy
  · dsimp only
    rw [if_pos (show (!e.seeThroughWalls) = true by
      rw [eq_false_of_ne_true hsw]
      rfl)]
    have hdims := rotate_foldl_square e.agentViewSize (List.range (e.dir i + 1))
      (e.grid.slice (e.getViewExts i).1 (e.getViewExts i).2.1
        e.agentViewSize e.agentViewSize) rfl rfl
    refine ⟨_, _, rfl, ?_⟩
    intro x y hxy
    set g1 := (List.range (e.dir i + 1)).foldl (fun g _ => g.rotateLeft)
      (e.grid.slice (e.getViewExts i).1 (e.getViewExts i).2.1
        e.agentViewSize e.agentViewSize) with hg1
    have hpw : (g1.processVis (e.agentViewSize / 2, e.agentViewSize - 1)).1.width =
        e.agentViewSize := hdims.1
    have hph : (g1.processVis (e.agentViewSize / 2, e.agentViewSize - 1)).1.height =
        e.agentViewSize := hdims.2
    have hanchor : (g1.processVis (e.agentViewSize / 2, e.agentViewSize - 1)).2
        (e.agentViewSize / 2) (e.agentViewSize - 1) = true :=
      processVisMask_anchor g1 (e.agentViewSize / 2, e.agentViewSize - 1)
    have hne : ¬(x = (g1.processVis (e.agentViewSize / 2, e.agentViewSize - 1)).1.width / 2 ∧
        y = (g1.processVis (e.agentViewSize / 2, e.agentViewSize - 1)).1.height - 1) := by
      rintro ⟨rfl, rfl⟩
      rw [hpw, hph] at hxy
      rw [hanchor] at hxy
      exact Bool.true_eq_false.mp hxy
    rw [Grid.get_set_ne_nat _ _ _ _ _ _ (by rw [hpw]; omega)
      (by rw [hph]; omega) hne]
    exact processVis_cleared g1 (e.agentViewSize / 2, e.agentViewSize - 1) x y hxy

/-- Claim C10 (witness): a concrete environment and agent discharge the
hypotheses. -/
theorem gen_obs_grid_frame_witness :
    ∃ og vis, headOnEnv.genObsGrid 0 = some (headOnEnv, og, vis) ∧
      ∀ x y : Nat, vis x y = false → og.get (x : Int) (y : Int) = none :=
  gen_obs_grid_frame headOnEnv 0 (by decide) (by decide)

/-! ### Claim C7: the communication overlay copy condition -/

theorem idx_lt {i j w h : Nat} (hi : i < w) (hj : j < h) : i * h + j < w * h := by
  calc i * h + j < i * h + h := by omega
  _ = (i + 1) * h := by ring
  _ ≤ w * h := Nat.mul_le_mul_right _ hi

theorem idx_div {i j h : Nat} (hj : j < h) : (i * h + j) / h = i := by
  have h0 : 0 < h := Nat.lt_of_le_of_lt (Nat.zero_le j) hj
  rw [show i * h + j = j + i * h by ring, Nat.add_mul_div_right _ _ h0,
    Nat.div_eq_of_lt hj, Nat.zero_add]

theorem idx_mod {i j h : Nat} (hj : j < h) : (i * h + j) % h = j := by
  rw [show i * h + j = j + i * h by ring, Nat.add_mul_mod_self_right,
    Nat.mod_eq_of_lt hj]

theorem EncArray.at_mk {w h : Nat} (f : Nat → Nat × Nat × Nat) {i j : Nat}
    (hi : i < w) (hj : j < h) :
    (EncArray.mk w h ((List.range (w * h)).map f)).at i j = f (i * h + j) := by
  unfold EncArray.at
  exact getD_map_range _ _ _ _ (idx_lt hi hj)

/-- One cell of a merged image: the sender's stored entry exactly when the
cell is unseen by the receiver and the stored entry is neither type 0 nor
type 10; otherwise the receiver's own entry. -/
theorem commMergeOne_at (vis : Nat → Nat → Bool) (past img : EncArray)
    (i j : Nat) (hi : i < img.width) (hj : j < img.height) :
    (commMergeOne vis past img).at i j =
      if !(vis i j) && (past.at i j).1 != 0 && (past.at i j).1 != 10 then
        past.at i j
      else img.at i j := by
  unfold commMergeOne
  rw [EncArray.at_mk _ hi hj]
  dsimp only
  rw [idx_div hj, idx_mod hj]

theorem mapM'_option_spec {α β : Type} (f : α → Option β) :
    ∀ (l : List α) (L : List β), l.mapM' f = some L →
      L.length = l.length ∧
      ∀ (k : Nat) (d1 : α) (d2 : β), k < l.length →
        f (l.getD k d1) = some (L.getD k d2) := by
  intro l
  induction l with
  | nil =>
      intro L h
      cases h
      exact ⟨rfl, fun k d1 d2 hk => absurd hk (Nat.not_lt_zero k)⟩
  | cons a l ih =>
      intro L h
      simp only [List.mapM'] at h
      cases hfa : f a with
      | none => rw [hfa] at h; exact absurd h (by simp)
      | some b =>
          rw [hfa] at h
          simp only [Option.bind_eq_bind, Option.some_bind] at h
          cases hml : l.mapM' f with
          | none => rw [hml] at h; exact absurd h (by simp)
          | some L2 =>
              rw [hml] at h
              simp only [Option.some_bind, Option.map_some] at h
              cases h
              obtain ⟨hlen, hk⟩ := ih L2 hml
              refine ⟨by simp [hlen], ?_⟩
              intro k d1 d2 hk'
              cases k with
              | zero => simpa using hfa
              | succ k =>
                  simp only [List.getD_cons_succ]
                  exact hk k d1 d2 (by simpa using hk')

theorem mapM_option_spec {α β : Type} (f : α → Option β) (l : List α)
    (L : List β) (h : l.mapM f = some L) :
    L.length = l.length ∧
    ∀ (k : Nat) (d1 : α) (d2 : β), k < l.length →
      f (l.getD k d1) = some (L.getD k d2) := by
  rw [← List.mapM'_eq_mapM] at h
  exact mapM'_option_spec f l L h

theorem getD_map_of_lt {α β : Type} (f : α → β) (L : List α) (k : Nat)
    (d2 : β) (d1 : α) (hk : k < L.length) :
    (L.map f).getD k d2 = f (L.getD k d1) := by
  rw [List.getD_eq_getElem _ _ (by simpa using hk), List.getD_eq_getElem _ _ hk,
    List.getElem_map]

theorem foldl_ite_none {α : Type} (q : Nat → Prop) [DecidablePred q]
    (f : Nat → α → α) :
    ∀ (l : List Nat) (a : α), (∀ s ∈ l, ¬q s) →
      l.foldl (fun a s => if q s then f s a else a) a = a := by
  intro l
  induction l with
  | nil => intro a _; rfl
  | cons s l ih =>
      intro a h
      rw [List.foldl_cons, if_neg (h s (by simp))]
      exact ih a (fun t ht => h t (by simp [ht]))

theorem foldl_ite_single {α : Type} (q : Nat → Prop) [DecidablePred q]
    (f : Nat → α → α) (sender : Nat) (hq : ∀ s, q s → s = sender) :
    ∀ (l : List Nat), l.Nodup → sender ∈ l → q sender →
      ∀ a, l.foldl (fun a s => if q s then f s a else a) a = f sender a := by
  intro l
  induction l with
  | nil => intro _ hm; simp at hm
  | cons s l ih =>
      intro hnd hm hqs a
      rw [List.foldl_cons]
      by_cases hs : q s
      · have hss : s = sender := hq s hs
        subst hss
        rw [if_pos hs]
        apply foldl_ite_none
        intro t ht hqt
        have htt : t = s := hq t hqt
        subst htt
        exact (List.nodup_cons.mp hnd).1 ht
      · rw [if_neg hs]
        have hm' : sender ∈ l := by
          rcases List.mem_cons.mp hm with rfl | hm'
          · exact absurd hqs hs
          · exact hm'
        exact ih (List.nodup_cons.mp hnd).2 hm' hqs a

theorem getD_true_lt {cl : List Bool} {s : Nat} (h : cl.getD s false = true) :
    s < cl.length := by
  by_contra hns
  rw [List.getD_eq_default _ _ (Nat.le_of_not_lt hns)] at h
  exact Bool.false_ne_true h

/-- Claim C7 (counterexample). The overlay also copies cells the sender
stored as seen-EMPTY (type 1): receiver 0's private image has the unseen
entry (0,0,0) at cell (0,2) — outside its clipped window — while the
sender's stored image holds the seen-empty entry (1,0,0) there; after the
overlay, the shared observation holds (1,0,0), although the claim says a
copy happens only when the sender's stored cell is non-empty. -/
theorem comm_overlay_copies_empty :
    (commEnv.genObsComm [(0, 0), (1, 0)] [pastAllEmpty, pastAllEmpty]
        (some [false, true])).map
      (fun r => ((r.1.getD 0 ⟨0, 0, []⟩).at 0 2, (r.2.getD 0 ⟨0, 0, []⟩).at 0 2)) =
    some ((0, 0, 0), (1, 0, 0)) := rfl

/-- Claim C7 (amended). For a receiver and a sole qualifying sender
(signal set, pre-tick squared distance below 9), a cell of the receiver's
shared observation is overwritten with the sender's previous-tick stored
entry exactly when the cell is unseen by the receiver this tick and the
sender's stored entry is neither the "unseen" type 0 nor the "agent" type
10 — seen-empty cells (type 1) are copied as well; otherwise the cell
keeps the receiver's private entry, and the private (combined) observation
itself stays the plain encoding of the receiver's own view. -/
theorem comm_overlay_copy_condition (e : MAEnv) (orig : List (Int × Int))
    (past : List EncArray) (cl : List Bool) (comb shared : List EncArray)
    (recv sender : Nat)
    (hstep : e.genObsComm orig past (some cl) = some (comb, shared))
    (hrecv : recv < e.numAgents)
    (hsne : sender ≠ recv)
    (hscomm : cl.getD sender false = true)
    (hsole : ∀ s, s < cl.length → s ≠ recv → cl.getD s false = true → s = sender)
    (hdist : ((orig.getD recv (0, 0)).1 - (orig.getD sender (0, 0)).1) ^ 2 +
             ((orig.getD recv (0, 0)).2 - (orig.getD sender (0, 0)).2) ^ 2 < 9) :
    ∃ g vis, e.genObsGridComm recv = some (g, vis) ∧
      comb.getD recv ⟨0, 0, []⟩ =
        g.maEncode vis ((List.range e.numAgents).filterMap (fun oi =>
          if oi = recv then none else some (e.pos oi, oi, e.dir oi))) ∧
      ∀ i j : Nat, i < (comb.getD recv ⟨0, 0, []⟩).width →
        j < (comb.getD recv ⟨0, 0, []⟩).height →
        (shared.getD recv ⟨0, 0, []⟩).at i j =
          (if !(vis i j) && ((past.getD sender ⟨0, 0, []⟩).at i j).1 != 0 &&
              ((past.getD sender ⟨0, 0, []⟩).at i j).1 != 10 then
            (past.getD sender ⟨0, 0, []⟩).at i j
          else (comb.getD recv ⟨0, 0, []⟩).at i j) := by
  unfold MAEnv.genObsComm at hstep
  cases hmapM : (List.range e.numAgents).mapM (fun i =>
      match e.genObsGridComm i with
      | none => none
      | some gv =>
          some (gv.1.maEncode gv.2 ((List.range e.numAgents).filterMap (fun oi =>
            if oi = i then none else some (e.pos oi, oi, e.dir oi))), gv.2)) with
  | none => rw [hmapM] at hstep; exact absurd hstep (by simp)
  | some L =>
      rw [hmapM] at hstep
      dsimp only at hstep
      cases hstep
      obtain ⟨hLlen, hLk⟩ := mapM_option_spec _ _ _ hmapM
      have hrecvL : recv < L.length := by
        rw [hLlen, List.length_range]
        exact hrecv
      have hf := hLk recv 0 (⟨0, 0, []⟩, fun _ _ => true)
        (by rw [List.length_range]; exact hrecv)
      rw [List.getD_eq_getElem _ _ (by rw [List.length_range]; exact hrecv),
        List.getElem_range] at hf
      cases hg : e.genObsGridComm recv with
      | none => rw [hg] at hf; exact absurd hf (by simp)
      | some gv =>
          obtain ⟨gA, gB⟩ := gv
          rw [hg] at hf
          dsimp only at hf
          have hL1 : (L.getD recv (⟨0, 0, []⟩, fun _ _ => true)).1 =
              gA.maEncode gB ((List.range e.numAgents).filterMap (fun oi =>
                if oi = recv then none else some (e.pos oi, oi, e.dir oi))) := by
            injection hf with hf
            rw [← hf]
          have hL2 : (L.getD recv (⟨0, 0, []⟩, fun _ _ => true)).2 = gB := by
            injection hf with hf
            rw [← hf]
          have hcomb : (L.map Prod.fst).getD recv ⟨0, 0, []⟩ =
              (L.getD recv (⟨0, 0, []⟩, fun _ _ => true)).1 :=
            getD_map_of_lt _ _ _ _ _ hrecvL
          refine ⟨gA, gB, rfl, by rw [hcomb, hL1], ?_⟩
          intro i j hi hj
          -- evaluate the shared list at the receiver
          have hshared : ((List.range e.numAgents).map (fun recv =>
              (List.range cl.length).foldl (fun img s =>
                if s ≠ recv ∧ cl.getD s false = true ∧
                    ((orig.getD recv (0, 0)).1 - (orig.getD s (0, 0)).1) ^ 2 +
                    ((orig.getD recv (0, 0)).2 - (orig.getD s (0, 0)).2) ^ 2 < 9 then
                  commMergeOne (L.getD recv (⟨0, 0, []⟩, fun _ _ => true)).2
                    (past.getD s ⟨0, 0, []⟩) img
                else img)
                (L.getD recv (⟨0, 0, []⟩, fun _ _ => true)).1)).getD recv ⟨0, 0, []⟩ =
              commMergeOne gB (past.getD sender ⟨0, 0, []⟩)
                (L.getD recv (⟨0, 0, []⟩, fun _ _ => true)).1 := by
            rw [getD_map_range _ _ _ _ hrecv]
            rw [hL2]
            refine foldl_ite_single _ _ sender ?_ _ (List.nodup_range _)
              (List.mem_range.mpr (getD_true_lt hscomm)) ⟨hsne, hscomm, hdist⟩ _
            intro s hs
            exact hsole s (getD_true_lt hs.2.1) hs.1 hs.2.1
          rw [hshared]
          rw [hcomb] at hi hj
          rw [commMergeOne_at _ _ _ _ _ hi hj, hcomb]

/-- Claim C7 (witness for the amended theorem): the concrete communication
scenario discharges the hypotheses with receiver 0 and sender 1. -/
theorem comm_overlay_copy_condition_witness :
    ∃ g vis, commEnv.genObsGridComm 0 = some (g, vis) ∧
      commObsResult.1.getD 0 ⟨0, 0, []⟩ =
        g.maEncode vis ((List.range commEnv.numAgents).filterMap (fun oi =>
          if oi = 0 then none else some (commEnv.pos oi, oi, commEnv.dir oi))) ∧
      ∀ i j : Nat, i < (commObsResult.1.getD 0 ⟨0, 0, []⟩).width →
        j < (commObsResult.1.getD 0 ⟨0, 0, []⟩).height →
        (commObsResult.2.getD 0 ⟨0, 0, []⟩).at i j =
          (if !(vis i j) && (([pastAllEmpty, pastAllEmpty].getD 1 ⟨0, 0, []⟩).at i j).1 != 0 &&
              (([pastAllEmpty, pastAllEmpty].getD 1 ⟨0, 0, []⟩).at i j).1 != 10 then
            ([pastAllEmpty, pastAllEmpty].getD 1 ⟨0, 0, []⟩).at i j
          else (commObsResult.1.getD 0 ⟨0, 0, []⟩).at i j) :=
  comm_overlay_copy_condition commEnv [(0, 0), (1, 0)] [pastAllEmpty, pastAllEmpty]
    [false, true] commObsResult.1 commObsResult.2 0 1 rfl (by decide) (by decide)
    (by decide) (by decide) (by decide)

end MiniGrid
